import Mathlib

/-!
# proto_rpc: reactor thread pool, epoll poller and RPC channel

A shallow embedding of the parts of the `network` and `rpc_framework`
libraries that the verified properties are about.  Pointers are natural
numbers (addresses), `std::map` is a finite partial function, and the effects
a function has on the outside world (system calls, messages handed to the
codec, user callbacks run) are appended to a trace kept in the state.

Definitions come first, the theorems follow.
-/

namespace ProtoRpc

/-! ## How a call ends -/

/-- How a call into the library ends: it returns, the process is terminated by
`LOG(FATAL)`, or an `assert` fails. -/
inductive Status where
  | returned
  | fatal
  | assertFailed
  deriving DecidableEq, Repr

/-- The state at the moment a call ended, together with how it ended. -/
structure Outcome (σ : Type) where
  status : Status
  state : σ

/-! ## Thread affinity (EventLoop.cc) -/

/-- `EventLoop::abortNotInLoopThread` (EventLoop.cc): the body holds only a
commented-out `LOG(FATAL)`, so the call returns to its caller. -/
def abortNotInLoopThread : Status := Status.returned

/-- Modelled from the spec: `EventLoop::isInLoopThread`, declared in
EventLoop.h which is not among the sources; the caller is on the loop's thread
when its thread id is the one the loop recorded. -/
def isInLoopThread (threadId_ caller : Nat) : Bool := decide (threadId_ = caller)

/-- Modelled from the spec: `EventLoop::assertInLoopThread`, declared in
EventLoop.h which is not among the sources; off the owning thread it hands over
to `abortNotInLoopThread`, whose body is in EventLoop.cc. -/
def assertInLoopThread (threadId_ caller : Nat) : Status :=
  if isInLoopThread threadId_ caller then Status.returned else abortNotInLoopThread

/-! ## EventLoopThreadPool (EventLoopThreadPool.cc) -/

/-- The fields of `EventLoopThreadPool`.  Loops are named by their address;
`baseThreadId` is `baseLoop_->threadId_`, and `cbLog` records the loops the
init callback was run on by `start` itself. -/
structure EventLoopThreadPool where
  baseLoop_ : Nat
  baseThreadId : Nat
  started_ : Bool
  numThreads_ : Int
  next_ : Int
  loops_ : List Nat
  cbLog : List Nat
  deriving DecidableEq

namespace EventLoopThreadPool

/-- The constructor: not started, no threads, cursor at 0, no loops. -/
def new (baseLoop baseThreadId : Nat) : EventLoopThreadPool :=
  { baseLoop_ := baseLoop, baseThreadId := baseThreadId, started_ := false,
    numThreads_ := 0, next_ := 0, loops_ := [], cbLog := [] }

/-- `setThreadNum` (EventLoopThreadPool.h). -/
def setThreadNum (p : EventLoopThreadPool) (numThreads : Int) : EventLoopThreadPool :=
  { p with numThreads_ := numThreads }

/-- The body of the `for (int i = 0; i < numThreads_; ++i)` loop of `start`,
run for `i = from, from+1, ...` (`fuel` iterations are left):
`loops_.push_back(t->startLoop())`, where `startLoop i` is the loop the i-th
worker thread publishes. -/
def startWorkers (startLoop : Nat → Nat) : Nat → Nat → List Nat → List Nat
  | 0, _, loops => loops
  | fuel + 1, i, loops => startWorkers startLoop fuel (i + 1) (loops ++ [startLoop i])

/-- `EventLoopThreadPool::start`.  `cb` says whether the init callback is
non-empty.  `none` is a failed `assert(!started_)`. -/
def start (p : EventLoopThreadPool) (caller : Nat) (cb : Bool) (startLoop : Nat → Nat) :
    Option EventLoopThreadPool :=
  if p.started_ then none
  else
    match assertInLoopThread p.baseThreadId caller with
    | Status.returned =>
      let loops := startWorkers startLoop p.numThreads_.toNat 0 p.loops_
      some { p with
        started_ := true,
        loops_ := loops,
        cbLog := if p.numThreads_ = 0 ∧ cb then p.cbLog ++ [p.baseLoop_] else p.cbLog }
    | _ => none

/-- `EventLoopThreadPool::getNextLoop`: the loop returned and the pool
afterwards.  `none` is a failed `assert(started_)` or an out-of-range
`loops_[next_]`. -/
def getNextLoop (p : EventLoopThreadPool) (caller : Nat) : Option (Nat × EventLoopThreadPool) :=
  match assertInLoopThread p.baseThreadId caller with
  | Status.returned =>
    if !p.started_ then none
    else if p.loops_.isEmpty then some (p.baseLoop_, p)
    else if p.next_ < 0 then none
    else
      match p.loops_[p.next_.toNat]? with
      | none => none
      | some loop =>
        let next := p.next_ + 1
        some (loop, { p with next_ := if (p.loops_.length : Int) ≤ next then 0 else next })
  | _ => none

/-- `EventLoopThreadPool::getLoopForHash`: the loop returned and the pool
afterwards. -/
def getLoopForHash (p : EventLoopThreadPool) (caller : Nat) (hashCode : Nat) :
    Option (Nat × EventLoopThreadPool) :=
  match assertInLoopThread p.baseThreadId caller with
  | Status.returned =>
    if p.loops_.isEmpty then some (p.baseLoop_, p)
    else
      match p.loops_[hashCode % p.loops_.length]? with
      | none => none
      | some loop => some (loop, p)
  | _ => none

/-- The pool after `k` successive `getNextLoop` calls. -/
def afterNextCalls (caller : Nat) : Nat → EventLoopThreadPool → Option EventLoopThreadPool
  | 0, p => some p
  | k + 1, p => (getNextLoop p caller).bind fun r => afterNextCalls caller k r.2

/-- The loop returned by the `k`-th `getNextLoop` call (counting from 0) made on
pool `p`. -/
def nthNextLoop (caller : Nat) (p : EventLoopThreadPool) (k : Nat) : Option Nat :=
  (afterNextCalls caller k p).bind fun q => (getNextLoop q caller).map Prod.fst

/-- A pool of three workers at addresses 10, 11, 12 on base loop 100 (thread 1),
built by the constructor, `setThreadNum 3` and `start`. -/
def examplePool : EventLoopThreadPool :=
  (start (setThreadNum (new 100 1) 3) 1 false (fun i => 10 + i)).getD (new 100 1)

end EventLoopThreadPool

/-! ## Channel and Poller (Poller.cc) -/

/-- `kNew` (Poller.cc): the channel is not in the poller. -/
def kNew : Int := -1
/-- `kAdded` (Poller.cc): the channel is in the map and registered. -/
def kAdded : Int := 1
/-- `kDeleted` (Poller.cc): the channel is in the map but disarmed. -/
def kDeleted : Int := 2

/-- Modelled from the spec: the `Channel` class (Channel.h and Channel.cc are
not among the sources), with the fields the spec lists: owning loop, fd,
interest mask `events`, latched readiness mask `revents`, and index in the
poller.  The accessors `fd()`, `events()`, `index()`, `ownerLoop()` read the
fields; `set_index` and `set_revents` write them. -/
structure Channel where
  ownerLoop : Nat
  fd : Int
  events : Nat
  revents : Nat
  index : Int
  deriving DecidableEq, Repr

/-- Modelled from the spec: `Channel::isNoneEvent`, true when the interest mask
is empty. -/
def Channel.isNoneEvent (c : Channel) : Bool := c.events == 0

/-- The operation argument of `epoll_ctl`. -/
inductive CtlOp where
  | ADD
  | DEL
  | MOD
  deriving DecidableEq, Repr

/-- One `epoll_ctl(epollfd_, op, fd, &event)` call, with `event.events` and
`event.data.ptr`. -/
structure EpollCtl where
  op : CtlOp
  fd : Int
  events : Nat
  ptr : Nat
  deriving DecidableEq, Repr

/-- The kernel as seen by the poller: the value `epoll_ctl` returns for a call,
given the calls issued before it. -/
abbrev Kernel := List EpollCtl → EpollCtl → Int

/-- The state of a `Poller`: `ownerThreadId` is `ownerLoop_->threadId_`,
`channels_` is the fd map, `eventsSize` is `events_.size()`, `chan` is the
memory holding the `Channel` objects by address, and `ctl` is the trace of
`epoll_ctl` calls issued so far. -/
structure Poller where
  ownerThreadId : Nat
  channels_ : Int → Option Nat
  eventsSize : Nat
  chan : Nat → Channel
  ctl : List EpollCtl

namespace Poller

/-- `kInitEventListSize` (Poller.h). -/
def kInitEventListSize : Nat := 16

/-- The constructor: empty map, `events_` of the initial size, over the channel
objects `chan`. -/
def new (ownerThreadId : Nat) (chan : Nat → Channel) : Poller :=
  { ownerThreadId := ownerThreadId, channels_ := fun _ => none,
    eventsSize := kInitEventListSize, chan := chan, ctl := [] }

/-- `channel->set_index(idx)`. -/
def set_index (p : Poller) (channel : Nat) (idx : Int) : Poller :=
  { p with chan := Function.update p.chan channel { p.chan channel with index := idx } }

/-- `Poller::update`: issues the `epoll_ctl` call; when the kernel refuses it, a
`DEL` is only logged and any other operation is `LOG(FATAL)`. -/
def update (kernel : Kernel) (p : Poller) (operation : CtlOp) (channel : Nat) :
    Outcome Poller :=
  let call : EpollCtl :=
    { op := operation, fd := (p.chan channel).fd, events := (p.chan channel).events,
      ptr := channel }
  let p1 : Poller := { p with ctl := p.ctl ++ [call] }
  if kernel p.ctl call < 0 then
    if operation = CtlOp.DEL then { status := Status.returned, state := p1 }
    else { status := Status.fatal, state := p1 }
  else { status := Status.returned, state := p1 }

/-- `Poller::updateChannel`, asserts enabled. -/
def updateChannel (kernel : Kernel) (p : Poller) (caller : Nat) (channel : Nat) :
    Outcome Poller :=
  match assertInLoopThread p.ownerThreadId caller with
  | Status.returned =>
    let index := (p.chan channel).index
    let fd := (p.chan channel).fd
    if index = kNew ∨ index = kDeleted then
      if index = kNew then
        if p.channels_ fd ≠ none then { status := Status.assertFailed, state := p }
        else
          let p1 : Poller := { p with channels_ := Function.update p.channels_ fd (some channel) }
          update kernel (set_index p1 channel kAdded) CtlOp.ADD channel
      else
        if p.channels_ fd = none then { status := Status.assertFailed, state := p }
        else if p.channels_ fd ≠ some channel then { status := Status.assertFailed, state := p }
        else update kernel (set_index p channel kAdded) CtlOp.ADD channel
    else
      if p.channels_ fd = none then { status := Status.assertFailed, state := p }
      else if p.channels_ fd ≠ some channel then { status := Status.assertFailed, state := p }
      else if index ≠ kAdded then { status := Status.assertFailed, state := p }
      else if (p.chan channel).isNoneEvent then
        let o := update kernel p CtlOp.DEL channel
        match o.status with
        | Status.returned =>
          { status := Status.returned, state := set_index o.state channel kDeleted }
        | _ => o
      else update kernel p CtlOp.MOD channel
  | s => { status := s, state := p }

/-- `Poller::removeChannel`, asserts enabled.  `channels_.erase(fd)` removes the
one entry the first assert found, so `n == 1` holds. -/
def removeChannel (kernel : Kernel) (p : Poller) (caller : Nat) (channel : Nat) :
    Outcome Poller :=
  match assertInLoopThread p.ownerThreadId caller with
  | Status.returned =>
    let fd := (p.chan channel).fd
    if p.channels_ fd = none then { status := Status.assertFailed, state := p }
    else if p.channels_ fd ≠ some channel then { status := Status.assertFailed, state := p }
    else if !(p.chan channel).isNoneEvent then { status := Status.assertFailed, state := p }
    else
      let index := (p.chan channel).index
      if ¬ (index = kAdded ∨ index = kDeleted) then
        { status := Status.assertFailed, state := p }
      else
        let p1 : Poller := { p with channels_ := Function.update p.channels_ fd none }
        if index = kAdded then
          let o := update kernel p1 CtlOp.DEL channel
          match o.status with
          | Status.returned =>
            { status := Status.returned, state := set_index o.state channel kNew }
          | _ => o
        else { status := Status.returned, state := set_index p1 channel kNew }
  | s => { status := s, state := p }

/-- `Poller::hasChannel`; `none` when the thread check ends the call. -/
def hasChannel (p : Poller) (caller : Nat) (channel : Nat) : Option Bool :=
  match assertInLoopThread p.ownerThreadId caller with
  | Status.returned => some (decide (p.channels_ (p.chan channel).fd = some channel))
  | _ => none

end Poller

/-! ## Poller::poll and sequences of poller calls (Poller.cc) -/

/-- One entry of `events_` as filled in by `epoll_wait`: the `events` mask and
`data.ptr`. -/
structure EpollEvent where
  events : Nat
  ptr : Nat
  deriving DecidableEq, Repr

/-- What `epoll_wait` reports: the entries it wrote at the front of `events_`,
whose number is its return value (none for a timeout), or a failure, return
value -1, with the `errno` it left. -/
inductive EpollWait where
  | ready (events : List EpollEvent)
  | failed (errno : Int)
  deriving DecidableEq, Repr

/-- A call made on a poller by the loop thread: `updateChannel`,
`removeChannel`, or the owner of a channel changing its interest mask. -/
inductive PollerOp where
  | update (channel : Nat)
  | remove (channel : Nat)
  | setEvents (channel : Nat) (events : Nat)
  deriving DecidableEq, Repr

/-- The interest list of the epoll instance after a trace of `epoll_ctl` calls
made by a poller that is still running: an ADD or MOD registers `data.ptr` for
the fd (a refused one ends the process in `update`), and after a DEL the fd is
not registered. -/
def interest (trace : List EpollCtl) : Int → Option Nat :=
  trace.foldl
    (fun reg call =>
      match call.op with
      | CtlOp.DEL => Function.update reg call.fd none
      | _ => Function.update reg call.fd (some call.ptr))
    (fun _ => none)

namespace Poller

/-- `channel->set_revents(revents)`. -/
def set_revents (p : Poller) (channel : Nat) (revents : Nat) : Poller :=
  { p with chan := Function.update p.chan channel { p.chan channel with revents := revents } }

/-- The channel objects after the readiness masks of `events` have been latched
in order. -/
def stampRevents (events : List EpollEvent) (chan : Nat → Channel) : Nat → Channel :=
  events.foldl (fun ch e => Function.update ch e.ptr { ch e.ptr with revents := e.events }) chan

/-- The `for` loop of `Poller::fillActiveChannels` over the reported entries,
asserts enabled: the poller and the active-channel list afterwards. -/
def fillLoop (p : Poller) : List EpollEvent → List Nat → Outcome (Poller × List Nat)
  | [], activeChannels => { status := Status.returned, state := (p, activeChannels) }
  | e :: rest, activeChannels =>
    if p.channels_ (p.chan e.ptr).fd = none then
      { status := Status.assertFailed, state := (p, activeChannels) }
    else if p.channels_ (p.chan e.ptr).fd ≠ some e.ptr then
      { status := Status.assertFailed, state := (p, activeChannels) }
    else fillLoop (set_revents p e.ptr e.events) rest (activeChannels ++ [e.ptr])

/-- `Poller::fillActiveChannels(numEvents, activeChannels)` where `events` are
the first `numEvents` entries of `events_`. -/
def fillActiveChannels (p : Poller) (events : List EpollEvent) (activeChannels : List Nat) :
    Outcome (Poller × List Nat) :=
  if ¬ events.length ≤ p.eventsSize then
    { status := Status.assertFailed, state := (p, activeChannels) }
  else fillLoop p events activeChannels

/-- `Poller::poll`, given what `epoll_wait` reports: the poller and the
active-channel list afterwards.  A failure is only logged (not even that for
`EINTR`). -/
def poll (p : Poller) (wait : EpollWait) (activeChannels : List Nat) :
    Outcome (Poller × List Nat) :=
  match wait with
  | EpollWait.ready events =>
    if 0 < events.length then
      let o := fillActiveChannels p events activeChannels
      match o.status with
      | Status.returned =>
        if events.length = o.state.1.eventsSize then
          { status := Status.returned,
            state := ({ o.state.1 with eventsSize := o.state.1.eventsSize * 2 }, o.state.2) }
        else o
      | _ => o
    else { status := Status.returned, state := (p, activeChannels) }
  | EpollWait.failed _ => { status := Status.returned, state := (p, activeChannels) }

/-- The poller's state invariant: every channel's index is NEW, ADDED or
DELETED; the channel is in the fd map exactly when its index is ADDED or
DELETED; and it is registered with the kernel exactly when its index is
ADDED. -/
def Consistent (p : Poller) : Prop :=
  ∀ c : Nat,
    ((p.chan c).index = kNew ∨ (p.chan c).index = kAdded ∨ (p.chan c).index = kDeleted) ∧
    (p.channels_ (p.chan c).fd = some c ↔
      ((p.chan c).index = kAdded ∨ (p.chan c).index = kDeleted)) ∧
    (interest p.ctl (p.chan c).fd = some c ↔ (p.chan c).index = kAdded)

/-- The poller after one call of a sequence. -/
def applyOp (kernel : Kernel) (p : Poller) (caller : Nat) : PollerOp → Outcome Poller
  | PollerOp.update channel => updateChannel kernel p caller channel
  | PollerOp.remove channel => removeChannel kernel p caller channel
  | PollerOp.setEvents channel events =>
    { status := Status.returned,
      state := { p with
        chan := Function.update p.chan channel { p.chan channel with events := events } } }

/-- The poller after a sequence of calls; the sequence stops at the first call
that does not return. -/
def runOps (kernel : Kernel) (caller : Nat) : Poller → List PollerOp → Outcome Poller
  | p, [] => { status := Status.returned, state := p }
  | p, op :: ops =>
    match (applyOp kernel p caller op).status with
    | Status.returned => runOps kernel caller (applyOp kernel p caller op).state ops
    | _ => applyOp kernel p caller op

end Poller

/-! ## EventLoop (EventLoop.cc) -/

/-- Something that happens to a loop while user code run by it (the handler
of a channel or a pending functor) is executing: the user code calls
`queueInLoop(cb)` or `quit()` on the loop's thread, or meanwhile another
thread calls `queueInLoop(cb)`, which only takes `mutex_` and so is not held
up by the running code. -/
inductive Action where
  | queueInLoop (cb : Nat)
  | quit
  | remoteQueueInLoop (cb : Nat)
  deriving DecidableEq, Repr

/-- The surroundings of a running loop.  `wait n` is what the `epoll_wait` of
the poll started at iteration count `n` reports; `handleEvent n channel` is
what happens while `channel->handleEvent()` runs when dispatched at iteration
count `n`, and `functor cb` what happens while the functor `cb` runs: the calls
the code makes and the calls other threads make meanwhile, in the order they
take effect; `remoteQueue n` are the functors other threads pass to
`queueInLoop` while the poll started at iteration count `n` is in progress, and
`remoteQuit n` says whether another thread calls `quit()` during that poll. -/
structure LoopEnv where
  wait : Nat → EpollWait
  handleEvent : Nat → Nat → List Action
  functor : Nat → List Action
  remoteQueue : Nat → List Nat
  remoteQuit : Nat → Bool

/-- How far a run of `loop()` got in the iterations it was followed for: the
`while` loop was left, it is still running, or the process was ended inside
it. -/
inductive LoopStatus where
  | exited
  | running
  | aborted
  deriving DecidableEq, Repr

/-- The state a run of `loop()` reached, together with how far it got. -/
structure LoopRun (σ : Type) where
  status : LoopStatus
  state : σ

/-- The fields of `EventLoop`: `self` is the address of the loop, `poller_` the
poller it owns, `wakeupChannel_` the address of the wake channel,
`pendingFunctors_` the functors queued (by address).  The last four fields are
traces: the number of writes to the wake fd, the number of `quit()` calls, the
functors run and the channels whose `handleEvent` was called, in order. -/
structure EventLoop where
  self : Nat
  threadId_ : Nat
  wakeupFd_ : Int
  wakeupChannel_ : Nat
  looping_ : Bool
  quit_ : Bool
  eventHandling_ : Bool
  callingPendingFunctors_ : Bool
  iteration_ : Nat
  currentActiveChannel_ : Option Nat
  activeChannels_ : List Nat
  poller_ : Poller
  pendingFunctors_ : List Nat
  wakeups : Nat
  quitCalls : Nat
  ran : List Nat
  handled : List Nat

namespace EventLoop

/-- `EventLoop::updateChannel`. -/
def updateChannel (kernel : Kernel) (l : EventLoop) (caller : Nat) (channel : Nat) :
    Outcome EventLoop :=
  if (l.poller_.chan channel).ownerLoop ≠ l.self then
    { status := Status.assertFailed, state := l }
  else
    match assertInLoopThread l.threadId_ caller with
    | Status.returned =>
      let o := Poller.updateChannel kernel l.poller_ caller channel
      { status := o.status, state := { l with poller_ := o.state } }
    | s => { status := s, state := l }

/-- `EventLoop::removeChannel`. -/
def removeChannel (kernel : Kernel) (l : EventLoop) (caller : Nat) (channel : Nat) :
    Outcome EventLoop :=
  if (l.poller_.chan channel).ownerLoop ≠ l.self then
    { status := Status.assertFailed, state := l }
  else
    match assertInLoopThread l.threadId_ caller with
    | Status.returned =>
      if l.eventHandling_ ∧
          ¬ (l.currentActiveChannel_ = some channel ∨ channel ∉ l.activeChannels_) then
        { status := Status.assertFailed, state := l }
      else
        let o := Poller.removeChannel kernel l.poller_ caller channel
        { status := o.status, state := { l with poller_ := o.state } }
    | s => { status := s, state := l }

/-- `EventLoop::hasChannel`; `none` when an assert or the thread check ends the
call. -/
def hasChannel (l : EventLoop) (caller : Nat) (channel : Nat) : Option Bool :=
  if (l.poller_.chan channel).ownerLoop ≠ l.self then none
  else
    match assertInLoopThread l.threadId_ caller with
    | Status.returned => Poller.hasChannel l.poller_ caller channel
    | _ => none

/-- Modelled from the spec: `kReadEvent` of Channel.cc, which is not among the
sources: the interest mask a channel gets from `enableReading()`,
`POLLIN | POLLPRI`. -/
def kReadEvent : Nat := 3

/-- The constructor, for the loop at address `self` created on thread
`threadId` with the eventfd `wakeupFd`; `t_loopInThisThread` is the loop the
thread already has, if any, which is `LOG(FATAL)`.  It creates the wake channel
at address `wakeupChannel` (a NEW channel of this loop with that fd, as the
spec describes a fresh channel), and `wakeupChannel_->enableReading()` gives it
read interest and registers it through `updateChannel`. -/
def new (kernel : Kernel) (self threadId : Nat) (t_loopInThisThread : Option Nat)
    (wakeupFd : Int) (wakeupChannel : Nat) (chan : Nat → Channel) : Outcome EventLoop :=
  let wake : Channel :=
    { ownerLoop := self, fd := wakeupFd, events := kReadEvent, revents := 0, index := kNew }
  let l : EventLoop :=
    { self := self, threadId_ := threadId, wakeupFd_ := wakeupFd,
      wakeupChannel_ := wakeupChannel, looping_ := false, quit_ := false,
      eventHandling_ := false, callingPendingFunctors_ := false, iteration_ := 0,
      currentActiveChannel_ := none, activeChannels_ := [],
      poller_ := Poller.new threadId (Function.update chan wakeupChannel wake),
      pendingFunctors_ := [], wakeups := 0, quitCalls := 0, ran := [], handled := [] }
  match t_loopInThisThread with
  | some _ => { status := Status.fatal, state := l }
  | none => updateChannel kernel l threadId wakeupChannel

/-- `kPollTimeMs` (EventLoop.cc). -/
def kPollTimeMs : Int := 10000

/-- `EventLoop::wakeup`: one write to the wake fd. -/
def wakeup (l : EventLoop) : EventLoop := { l with wakeups := l.wakeups + 1 }

/-- `EventLoop::quit`, called on thread `caller`. -/
def quit (l : EventLoop) (caller : Nat) : EventLoop :=
  let l1 : EventLoop := { l with quit_ := true, quitCalls := l.quitCalls + 1 }
  if !isInLoopThread l1.threadId_ caller then wakeup l1 else l1

/-- `EventLoop::queueInLoop`, called on thread `caller`. -/
def queueInLoop (l : EventLoop) (caller : Nat) (cb : Nat) : EventLoop :=
  let l1 : EventLoop := { l with pendingFunctors_ := l.pendingFunctors_ ++ [cb] }
  if !isInLoopThread l1.threadId_ caller || l1.callingPendingFunctors_ then wakeup l1 else l1

/-- One call taking effect: a call of the running user code is made on the
loop's thread, a call of another thread on a thread that is not the loop's. -/
def perform (l : EventLoop) : Action → EventLoop
  | Action.queueInLoop cb => queueInLoop l l.threadId_ cb
  | Action.quit => quit l l.threadId_
  | Action.remoteQueueInLoop cb => queueInLoop l (l.threadId_ + 1) cb

/-- Running the functor `cb`: it is recorded as run, and the calls it makes and
those other threads make meanwhile take effect. -/
def runFunctor (env : LoopEnv) (l : EventLoop) (cb : Nat) : EventLoop :=
  (env.functor cb).foldl perform { l with ran := l.ran ++ [cb] }

/-- `EventLoop::runInLoop`, called on thread `caller`. -/
def runInLoop (env : LoopEnv) (l : EventLoop) (caller : Nat) (cb : Nat) : EventLoop :=
  if isInLoopThread l.threadId_ caller then runFunctor env l cb else queueInLoop l caller cb

/-- `EventLoop::doPendingFunctors`: the queue is swapped out under `mutex_` and
the functors run with it released, so `queueInLoop` calls of the functors and
of other threads land in the emptied `pendingFunctors_` while they run. -/
def doPendingFunctors (env : LoopEnv) (l : EventLoop) : EventLoop :=
  let functors := l.pendingFunctors_
  let l1 : EventLoop := { l with callingPendingFunctors_ := true, pendingFunctors_ := [] }
  let l2 := functors.foldl (runFunctor env) l1
  { l2 with callingPendingFunctors_ := false }

/-- One pass of the dispatch loop in `loop()`: `currentActiveChannel_ = channel;
currentActiveChannel_->handleEvent()`. -/
def handleChannel (env : LoopEnv) (l : EventLoop) (channel : Nat) : EventLoop :=
  (env.handleEvent l.iteration_ channel).foldl perform
    { l with currentActiveChannel_ := some channel, handled := l.handled ++ [channel] }

/-- What other threads do to the loop while it is inside the poll started at
iteration count `n`: their `queueInLoop` calls, and possibly a `quit()`. -/
def duringPoll (env : LoopEnv) (n : Nat) (l : EventLoop) : EventLoop :=
  let l1 := ((env.remoteQueue n).map Action.remoteQueueInLoop).foldl perform l
  if env.remoteQuit n then quit l1 (l1.threadId_ + 1) else l1

/-- The part of the body of the `while` loop that follows `poll`: count the
iteration, dispatch every active channel, drain the pending functors. -/
def dispatchAndDrain (env : LoopEnv) (l : EventLoop) : EventLoop :=
  let l4 : EventLoop := { l with iteration_ := l.iteration_ + 1, eventHandling_ := true }
  let l5 := l4.activeChannels_.foldl (handleChannel env) l4
  let l6 : EventLoop := { l5 with currentActiveChannel_ := none, eventHandling_ := false }
  doPendingFunctors env l6

/-- The body of the `while (!quit_)` loop of `loop()`: clear the active list,
poll (other threads act on the loop meanwhile), then count the iteration,
dispatch every active channel and drain the pending functors. -/
def iteration (env : LoopEnv) (l : EventLoop) : Outcome EventLoop :=
  let l1 : EventLoop := { l with activeChannels_ := [] }
  let o := Poller.poll l1.poller_ (env.wait l.iteration_) l1.activeChannels_
  let l2 : EventLoop := { l1 with poller_ := o.state.1, activeChannels_ := o.state.2 }
  let l3 := duringPoll env l.iteration_ l2
  match o.status with
  | Status.returned => { status := Status.returned, state := dispatchAndDrain env l3 }
  | s => { status := s, state := l3 }

/-- The loop after `n` passes through the body of the `while` loop. -/
def afterIterations (env : LoopEnv) : Nat → EventLoop → EventLoop
  | 0, l => l
  | n + 1, l => afterIterations env n (iteration env l).state

/-- The `while (!quit_)` loop of `loop()`, followed for at most `fuel`
iterations. -/
def loopWhile (env : LoopEnv) : Nat → EventLoop → LoopRun EventLoop
  | 0, l =>
    if l.quit_ then { status := LoopStatus.exited, state := l }
    else { status := LoopStatus.running, state := l }
  | fuel + 1, l =>
    if l.quit_ then { status := LoopStatus.exited, state := l }
    else
      match (iteration env l).status with
      | Status.returned => loopWhile env fuel (iteration env l).state
      | _ => { status := LoopStatus.aborted, state := (iteration env l).state }

/-- `EventLoop::loop`, called on thread `caller` and followed for at most `fuel`
iterations. -/
def loop (env : LoopEnv) (fuel : Nat) (l : EventLoop) (caller : Nat) : LoopRun EventLoop :=
  if l.looping_ then { status := LoopStatus.aborted, state := l }
  else
    match assertInLoopThread l.threadId_ caller with
    | Status.returned =>
      let l1 : EventLoop := { l with looping_ := true, quit_ := false }
      let r := loopWhile env fuel l1
      match r.status with
      | LoopStatus.exited =>
        { status := LoopStatus.exited, state := { r.state with looping_ := false } }
      | _ => r
    | _ => { status := LoopStatus.aborted, state := l }

/-- How the traced fields of a loop move from `l` to `l2` while user code and
the drain run: functors `ranNew` were run, the handlers of `handledNew` were
called and `queuedNew` was appended to the pending queue; the iteration count
and `looping_` are untouched; `quit()` calls only add up, the quit flag is never
cleared, and it is only set by a `quit()` call. -/
def Evolves (l l2 : EventLoop) (ranNew handledNew queuedNew : List Nat) : Prop :=
  l2.ran = l.ran ++ ranNew ∧ l2.handled = l.handled ++ handledNew ∧
  l2.pendingFunctors_ = l.pendingFunctors_ ++ queuedNew ∧
  l2.iteration_ = l.iteration_ ∧ l2.looping_ = l.looping_ ∧
  l.quitCalls ≤ l2.quitCalls ∧
  (l2.quit_ = true → l.quit_ = true ∨ l.quitCalls < l2.quitCalls) ∧
  (l.quit_ = true → l2.quit_ = true)

/-- The functors passed to `queueInLoop` by a list of calls, whoever made
them, in order. -/
def queuedBy : List Action → List Nat
  | [] => []
  | Action.queueInLoop cb :: rest => cb :: queuedBy rest
  | Action.quit :: rest => queuedBy rest
  | Action.remoteQueueInLoop cb :: rest => cb :: queuedBy rest

/-- The functors passed to `queueInLoop` by the running user code itself, in
order. -/
def queuedLocallyBy : List Action → List Nat
  | [] => []
  | Action.queueInLoop cb :: rest => cb :: queuedLocallyBy rest
  | Action.quit :: rest => queuedLocallyBy rest
  | Action.remoteQueueInLoop _ :: rest => queuedLocallyBy rest

/-- The functors queued while the functors `cbs` run, by them or by other
threads, in order. -/
def queuedByFunctors (env : LoopEnv) : List Nat → List Nat
  | [] => []
  | cb :: rest => queuedBy (env.functor cb) ++ queuedByFunctors env rest

/-- The functors queued by the functors `cbs` themselves when they run, in
order. -/
def queuedLocallyByFunctors (env : LoopEnv) : List Nat → List Nat
  | [] => []
  | cb :: rest => queuedLocallyBy (env.functor cb) ++ queuedLocallyByFunctors env rest

/-- No other thread queues anything while the functors `cbs` run. -/
def noRemoteQueue (env : LoopEnv) (cbs : List Nat) : Prop :=
  ∀ cb ∈ cbs, ∀ x, Action.remoteQueueInLoop x ∉ env.functor cb

/-- The functors queued while the handlers of `channels` run, dispatched at
iteration count `n`, in order. -/
def queuedByHandlers (env : LoopEnv) (n : Nat) : List Nat → List Nat
  | [] => []
  | channel :: rest => queuedBy (env.handleEvent n channel) ++ queuedByHandlers env n rest

end EventLoop

/-! ## RpcChannel (RpcChannel.cc) -/

/-- The content of a `bytes` field or of a serialized message. -/
abbrev Bytes := List Nat

/-- Modelled from the spec: the `MessageType` enum of the generated rpc.pb.h,
which is not among the sources (REQUEST = 1, RESPONSE = 2, ERROR = 3). -/
inductive MessageType where
  | REQUEST
  | RESPONSE
  | ERROR
  deriving DecidableEq, Repr

/-- Modelled from the spec: the `ErrorCode` enum of the generated rpc.pb.h,
which is not among the sources. -/
inductive ErrorCode where
  | NO_ERROR
  | WRONG_PROTO
  | NO_SERVICE
  | NO_METHOD
  | INVALID_REQUEST
  deriving DecidableEq, Repr

/-- Modelled from the spec: the `RpcMessage` envelope of the generated rpc.pb.h,
which is not among the sources, with the fields the spec lists. -/
structure RpcMessage where
  type : MessageType
  id : Int
  service : String
  method : String
  request : Bytes
  response : Bytes
  error : ErrorCode
  deriving DecidableEq, Repr

/-- A default-constructed `RpcMessage message;`: no field set. -/
def RpcMessage.empty : RpcMessage :=
  { type := MessageType.REQUEST, id := 0, service := "", method := "", request := [],
    response := [], error := ErrorCode.NO_ERROR }

/-- Modelled from the spec: the service capability supplied by the schema
runtime (`google::protobuf::Service`, not among the sources).  A message object
is represented by its serialization.  `FindMethodByName` is the descriptor
lookup (`none` for a null result), `ParseFromString method bytes` says whether
the request prototype of the method parses the bytes, and `CallMethod` is the
dispatch entry point as seen by the channel: `some r` when the service fills in
a response serializing to `r` and runs the completion continuation before it
returns, `none` when it keeps the continuation for later. -/
structure Service where
  FindMethodByName : String → Option Nat
  ParseFromString : Nat → Bytes → Bool
  CallMethod : Nat → Bytes → Option Bytes

/-- Modelled from the spec: what `CallMethod` reads from a
`google::protobuf::MethodDescriptor` (not among the sources): the full name of
the service and the name of the method. -/
structure MethodDescriptor where
  serviceFullName : String
  name : String

/-- `RpcChannel::OutstandingCall` (RpcChannel.h); `none` is a null pointer. -/
structure OutstandingCall where
  response : Option Nat
  done : Option Nat
  deriving DecidableEq, Repr

/-- What the channel does to the outside world, in order. -/
inductive Effect where
  -- codec_.send(conn_, message)
  | send (conn : Option Nat) (message : RpcMessage)
  -- out.response->ParseFromString(bytes) on the response slot at address slot
  | parse (slot : Nat) (bytes : Bytes)
  -- out.done->Run() on the caller continuation at address done
  | run (done : Nat)
  -- the unique_ptr over the response slot deleting it at the end of its scope
  | free (slot : Nat)
  -- service->CallMethod(method, NULL, request, response, done), where done is
  -- the doneCallback closure for request id
  | dispatch (service : String) (method : Nat) (request : Bytes) (id : Int)
  deriving DecidableEq, Repr

/-- The fields of `RpcChannel`: `conn_` (`none` is an empty pointer), the id
counter, the outstanding table, the service table pointer (`none` is NULL; a
registered name maps to a service pointer, itself `none` when NULL), and the
trace of effects so far. -/
structure RpcChannel where
  conn_ : Option Nat
  id_ : Int
  outstandings_ : Int → Option OutstandingCall
  services_ : Option (String → Option (Option Service))
  effects : List Effect

/-- Reduction of an integer to the range of `int64_t`. -/
def wrap64 (x : Int) : Int := (x + 2 ^ 63) % 2 ^ 64 - 2 ^ 63

namespace RpcChannel

/-- `RpcChannel::RpcChannel(conn)`: the constructors set `conn_` and
`services_ = NULL` and give `id_` no initial value; `id0` is the value the
member starts with. -/
def new (conn : Option Nat) (id0 : Int) : RpcChannel :=
  { conn_ := conn, id_ := id0, outstandings_ := fun _ => none, services_ := none,
    effects := [] }

/-- `setServices` (RpcChannel.h). -/
def setServices (st : RpcChannel) (services : Option (String → Option (Option Service))) :
    RpcChannel :=
  { st with services_ := services }

/-- `codec_.send(conn_, message)`. -/
def send (st : RpcChannel) (message : RpcMessage) : RpcChannel :=
  { st with effects := st.effects ++ [Effect.send st.conn_ message] }

/-- `RpcChannel::CallMethod`: `request` is `request->SerializeAsString()`; the
id is `id_.fetch_add(1) + 1` in 64-bit two's complement. -/
def CallMethod (st : RpcChannel) (method : MethodDescriptor) (request : Bytes)
    (response done : Option Nat) : RpcChannel :=
  let id := wrap64 (st.id_ + 1)
  let message : RpcMessage :=
    { RpcMessage.empty with
      type := MessageType.REQUEST, id := id, service := method.serviceFullName,
      method := method.name, request := request }
  let st1 : RpcChannel :=
    { st with
      id_ := wrap64 (st.id_ + 1),
      outstandings_ := Function.update st.outstandings_ id
        (some { response := response, done := done }) }
  send st1 message

/-- `RpcChannel::handle_response_msg`. -/
def handle_response_msg (st : RpcChannel) (message : RpcMessage) : RpcChannel :=
  let id := message.id
  let found := st.outstandings_ id
  let out : OutstandingCall := found.getD { response := none, done := none }
  let st1 : RpcChannel :=
    match found with
    | some _ => { st with outstandings_ := Function.update st.outstandings_ id none }
    | none => st
  match out.response with
  | some slot =>
    let st2 : RpcChannel :=
      if message.response ≠ [] then
        { st1 with effects := st1.effects ++ [Effect.parse slot message.response] }
      else st1
    let st3 : RpcChannel :=
      match out.done with
      | some done => { st2 with effects := st2.effects ++ [Effect.run done] }
      | none => st2
    { st3 with effects := st3.effects ++ [Effect.free slot] }
  | none => st1

/-- `RpcChannel::doneCallback`: `response` is `response->SerializeAsString()`. -/
def doneCallback (st : RpcChannel) (response : Bytes) (id : Int) : RpcChannel :=
  send st { RpcMessage.empty with type := MessageType.RESPONSE, id := id, response := response }

/-- The nested lookups of `RpcChannel::handle_request_msg`: the value left in
`error` and the channel afterwards; `none` is the failed
`assert(service != NULL)`. -/
def dispatchRequest (st : RpcChannel) (message : RpcMessage) : Option (ErrorCode × RpcChannel) :=
  match st.services_ with
  | some services =>
    match services message.service with
    | some (some service) =>
      match service.FindMethodByName message.method with
      | some method =>
        if service.ParseFromString method message.request then
          let id := message.id
          let st1 : RpcChannel :=
            { st with effects := st.effects ++
                [Effect.dispatch message.service method message.request id] }
          let st2 : RpcChannel :=
            match service.CallMethod method message.request with
            | some r => doneCallback st1 r id
            | none => st1
          some (ErrorCode.NO_ERROR, st2)
        else some (ErrorCode.INVALID_REQUEST, st)
      | none => some (ErrorCode.NO_METHOD, st)
    | some none => none
    | none => some (ErrorCode.NO_SERVICE, st)
  | none => some (ErrorCode.NO_SERVICE, st)

/-- `RpcChannel::handle_request_msg`; its `conn` argument is not used by the
body, which replies on `conn_`. -/
def handle_request_msg (st : RpcChannel) (message : RpcMessage) : Outcome RpcChannel :=
  match dispatchRequest st message with
  | none => { status := Status.assertFailed, state := st }
  | some (error, st1) =>
    if error ≠ ErrorCode.NO_ERROR then
      let response : RpcMessage :=
        { RpcMessage.empty with type := MessageType.RESPONSE, id := message.id, error := error }
      { status := Status.returned, state := send st1 response }
    else { status := Status.returned, state := st1 }

/-- `RpcChannel::onRpcMessage`. -/
def onRpcMessage (st : RpcChannel) (conn : Option Nat) (message : RpcMessage) :
    Outcome RpcChannel :=
  if conn ≠ st.conn_ then { status := Status.assertFailed, state := st }
  else if message.type = MessageType.RESPONSE then
    { status := Status.returned, state := handle_response_msg st message }
  else if message.type = MessageType.REQUEST then handle_request_msg st message
  else { status := Status.returned, state := st }

end RpcChannel

/-- A step in the life of a channel: a `CallMethod`, an inbound message handed
to `onRpcMessage` on the channel's own connection, a service running the
completion continuation `doneCallback(response, id)` it was handed, or
`setServices`. -/
inductive ChannelOp where
  | call (method : MethodDescriptor) (request : Bytes) (response done : Option Nat)
  | receive (message : RpcMessage)
  | complete (response : Bytes) (id : Int)
  | services (table : Option (String → Option (Option Service)))

namespace RpcChannel

/-- The channel after one step. -/
def applyOp (st : RpcChannel) : ChannelOp → RpcChannel
  | ChannelOp.call method request response done => CallMethod st method request response done
  | ChannelOp.receive message => (onRpcMessage st st.conn_ message).state
  | ChannelOp.complete response id => doneCallback st response id
  | ChannelOp.services table => setServices st table

/-- The channel after a sequence of steps. -/
def runOps (st : RpcChannel) (ops : List ChannelOp) : RpcChannel := ops.foldl applyOp st

/-- The number of `CallMethod` calls in a sequence of steps. -/
def callCount : List ChannelOp → Nat
  | [] => 0
  | ChannelOp.call _ _ _ _ :: ops => callCount ops + 1
  | _ :: ops => callCount ops

/-- The id carried by the last message handed to the codec, if any. -/
def lastSentId (st : RpcChannel) : Option Int :=
  match st.effects.getLast? with
  | some (Effect.send _ message) => some message.id
  | _ => none

/-- Every key of the outstanding table is one of the `n` ids issued since the
counter held `id0`, and the counter is `n` steps on from `id0`. -/
def IdsIssued (id0 : Int) (n : Nat) (st : RpcChannel) : Prop :=
  (∀ k, st.outstandings_ k ≠ none → ∃ j : Nat, 1 ≤ j ∧ j ≤ n ∧ k = wrap64 (id0 + j)) ∧
  wrap64 (st.id_ + 1) = wrap64 (id0 + n + 1)

end RpcChannel

/-! ## ProtoRpcCodec (RpcCodec.h) -/

namespace ProtoRpcCodec

/-- `kHeaderLen = sizeof(int32_t)`. -/
def kHeaderLen : Int := 4

/-- `kChecksumLen = sizeof(int32_t)`. -/
def kChecksumLen : Int := 4

/-- `kMaxMessageLen = 64 * 1024 * 1024`. -/
def kMaxMessageLen : Int := 64 * 1024 * 1024

/-- `int kMinMessageLen = 4;`, the member initializer in RpcCodec.h. -/
def kMinMessageLen : Int := 4

/-- `tag_ = "RPC0"`. -/
def tag_ : String := "RPC0"

end ProtoRpcCodec

/-! ## Concrete states used to exercise the definitions -/

/-- A kernel that accepts every `epoll_ctl` call. -/
def okKernel : Kernel := fun _ _ => 0

/-- Channel objects: at every address a channel of loop 100 in state NEW with
read interest, whose fd is 5 plus its address. -/
def exampleChannels : Nat → Channel := fun a =>
  { ownerLoop := 100, fd := 5 + (a : Int), events := 1, revents := 0, index := kNew }

/-- An empty poller owned by thread 1 over `exampleChannels`. -/
def examplePoller : Poller := Poller.new 1 exampleChannels

/-- A poller owned by thread 1 in which channel 0 (fd 5) is in the map, ADDED,
with an empty interest mask, and channel 1 (fd 6) is in the map, ADDED, with
read interest. -/
def armedPoller : Poller :=
  { ownerThreadId := 1,
    channels_ := fun fd => if fd = 5 then some 0 else if fd = 6 then some 1 else none,
    eventsSize := 16,
    chan := fun a =>
      { ownerLoop := 100, fd := 5 + (a : Int), events := if a = 0 then 0 else 1, revents := 0,
        index := if a ≤ 1 then kAdded else kNew },
    ctl := [] }

/-- The empty poller after channel 0 is added, loses its interest and is
updated again: it is kept in the map, DELETED. -/
def disarmedPoller : Poller :=
  (Poller.runOps okKernel 1 examplePoller
    [PollerOp.update 0, PollerOp.setEvents 0 0, PollerOp.update 0]).state

/-- Surroundings in which every wait times out, no handler or functor calls
back into the loop, and another thread calls `quit()` during the poll started
at iteration count 2. -/
def quitEnv : LoopEnv :=
  { wait := fun _ => EpollWait.ready [],
    handleEvent := fun _ _ => [],
    functor := fun _ => [],
    remoteQueue := fun _ => [],
    remoteQuit := fun n => decide (n = 2) }

/-- Surroundings in which functor 7 makes no call itself, but another thread
calls `queueInLoop(99)` while it runs. -/
def raceEnv : LoopEnv :=
  { wait := fun _ => EpollWait.ready [],
    handleEvent := fun _ _ => [],
    functor := fun cb => if cb = 7 then [Action.remoteQueueInLoop 99] else [],
    remoteQueue := fun _ => [],
    remoteQuit := fun _ => false }

/-- Surroundings in which functor 7 queues functor 8 and nothing else happens. -/
def chainEnv : LoopEnv :=
  { wait := fun _ => EpollWait.ready [],
    handleEvent := fun _ _ => [],
    functor := fun cb => if cb = 7 then [Action.queueInLoop 8] else [],
    remoteQueue := fun _ => [],
    remoteQuit := fun _ => false }

/-- The loop at address 100 constructed on thread 1 over `exampleChannels`, with
wake fd 3 and its wake channel at address 50. -/
def exampleLoop : EventLoop := (EventLoop.new okKernel 100 1 none 3 50 exampleChannels).state

/-- The example loop with functor 7 pending. -/
def drainingLoop : EventLoop := { exampleLoop with pendingFunctors_ := [7] }

/-- The service of the example server: one method `MonitorInfo` (descriptor 0),
a request parses unless it starts with byte 255, and the method answers at once
with the request prefixed by byte 1. -/
def exampleService : Service :=
  { FindMethodByName := fun n => if n = "MonitorInfo" then some 0 else none,
    ParseFromString := fun _ b => decide (b.head? ≠ some 255),
    CallMethod := fun _ b => some (1 :: b) }

/-- A service table with `exampleService` registered as `monitor.TestService`. -/
def exampleServices : String → Option (Option Service) := fun n =>
  if n = "monitor.TestService" then some (some exampleService) else none

/-- The method descriptor of `monitor.TestService.MonitorInfo`. -/
def exampleMethod : MethodDescriptor :=
  { serviceFullName := "monitor.TestService", name := "MonitorInfo" }

/-- A client channel on connection 9 after one `CallMethod` with response slot
40 and continuation 41; the id counter started at 0, so id 1 is outstanding. -/
def clientChannel : RpcChannel :=
  RpcChannel.CallMethod (RpcChannel.new (some 9) 0) exampleMethod [1, 2, 3] (some 40) (some 41)

/-- A server channel on connection 9 with `exampleServices` set. -/
def serverChannel : RpcChannel :=
  RpcChannel.setServices (RpcChannel.new (some 9) 0) (some exampleServices)

/-! ## Theorems -/

theorem assertInLoopThread_returned (t c : Nat) : assertInLoopThread t c = Status.returned := by
  unfold assertInLoopThread abortNotInLoopThread
  split <;> rfl

namespace EventLoopThreadPool

theorem start_cursor (p q : EventLoopThreadPool) (caller : Nat) (cb : Bool)
    (startLoop : Nat → Nat) (h : start p caller cb startLoop = some q) :
    q.started_ = true ∧ q.next_ = p.next_ ∧ q.baseLoop_ = p.baseLoop_ := by
  unfold start at h
  rw [assertInLoopThread_returned] at h
  split at h
  · simp at h
  · simp only [Option.some.injEq] at h
    subst h
    exact ⟨rfl, rfl, rfl⟩

theorem getNextLoop_empty (p : EventLoopThreadPool) (caller : Nat)
    (hs : p.started_ = true) (he : p.loops_ = []) :
    getNextLoop p caller = some (p.baseLoop_, p) := by
  simp [getNextLoop, assertInLoopThread_returned, hs, he]

theorem getNextLoop_step (p : EventLoopThreadPool) (caller j : Nat)
    (hs : p.started_ = true) (hj : p.next_ = (j : Int)) (hlt : j < p.loops_.length) :
    getNextLoop p caller =
      some (p.loops_.get ⟨j, hlt⟩,
        { p with next_ := (((j + 1) % p.loops_.length : Nat) : Int) }) := by
  have hne : p.loops_ ≠ [] := by
    intro h; rw [h] at hlt; simp at hlt
  have hget : p.loops_[j]? = some (p.loops_.get ⟨j, hlt⟩) := by
    simp [List.getElem?_eq_getElem hlt]
  have hnext : (if (p.loops_.length : Int) ≤ (j : Int) + 1 then (0 : Int) else (j : Int) + 1)
      = (((j + 1) % p.loops_.length : Nat) : Int) := by
    by_cases h : p.loops_.length ≤ j + 1
    · have : j + 1 = p.loops_.length := by omega
      rw [if_pos (by omega)]
      simp [this]
    · rw [if_neg (by omega), Nat.mod_eq_of_lt (by omega)]
      simp
  simp [getNextLoop, assertInLoopThread_returned, hs, hne, hj, hget, hnext]

theorem afterNextCalls_spec (caller : Nat) (k : Nat) :
    ∀ (p : EventLoopThreadPool) (j : Nat), p.started_ = true → p.next_ = (j : Int) →
      j < p.loops_.length →
      afterNextCalls caller k p =
        some { p with next_ := (((j + k) % p.loops_.length : Nat) : Int) } := by
  induction k with
  | zero =>
    intro p j _ hj hlt
    simp [afterNextCalls, Nat.mod_eq_of_lt hlt, ← hj]
  | succ k ih =>
    intro p j hs hj hlt
    have hN : 0 < p.loops_.length := by omega
    simp only [afterNextCalls, getNextLoop_step p caller j hs hj hlt, Option.some_bind]
    have h := ih { p with next_ := (((j + 1) % p.loops_.length : Nat) : Int) }
      ((j + 1) % p.loops_.length) hs rfl (Nat.mod_lt _ hN)
    simp only [Nat.mod_add_mod] at h
    have e : j + 1 + k = j + (k + 1) := by omega
    rw [e] at h
    exact h

theorem afterNextCalls_empty (caller : Nat) (k : Nat) (p : EventLoopThreadPool)
    (hs : p.started_ = true) (he : p.loops_ = []) : afterNextCalls caller k p = some p := by
  induction k with
  | zero => rfl
  | succ k ih => simp [afterNextCalls, getNextLoop_empty p caller hs he, ih]

theorem afterNextCalls_frame (caller : Nat) (k : Nat) :
    ∀ (p q : EventLoopThreadPool), afterNextCalls caller k p = some q →
      q.loops_ = p.loops_ ∧ q.baseLoop_ = p.baseLoop_ ∧ q.baseThreadId = p.baseThreadId := by
  induction k with
  | zero =>
    intro p q h
    simp [afterNextCalls] at h
    subst h
    exact ⟨rfl, rfl, rfl⟩
  | succ k ih =>
    intro p q h
    simp only [afterNextCalls] at h
    cases hg : getNextLoop p caller with
    | none => simp [hg] at h
    | some r =>
      rw [hg] at h
      simp only [Option.some_bind] at h
      have hr := ih r.2 q h
      have hp : r.2.loops_ = p.loops_ ∧ r.2.baseLoop_ = p.baseLoop_ ∧
          r.2.baseThreadId = p.baseThreadId := by
        unfold getNextLoop at hg
        rw [assertInLoopThread_returned] at hg
        simp only at hg
        split at hg
        · simp at hg
        · split at hg
          · simp at hg; subst hg; exact ⟨rfl, rfl, rfl⟩
          · split at hg
            · simp at hg
            · split at hg
              · simp at hg
              · simp at hg; subst hg; exact ⟨rfl, rfl, rfl⟩
      exact ⟨hr.1.trans hp.1, hr.2.1.trans hp.2.1, hr.2.2.trans hp.2.2⟩

/-- C1: on a started pool whose cursor is at 0, with no worker loops every
`getNextLoop` call returns the base loop, and with N >= 1 worker loops the k-th
call (counting from 0) returns the worker loop at index k mod N. -/
theorem getNextLoop_round_robin (p : EventLoopThreadPool) (caller : Nat)
    (hs : p.started_ = true) (h0 : p.next_ = 0) (k : Nat) :
    (p.loops_ = [] → nthNextLoop caller p k = some p.baseLoop_) ∧
    (∀ hN : 0 < p.loops_.length,
      nthNextLoop caller p k = some (p.loops_.get ⟨k % p.loops_.length, Nat.mod_lt k hN⟩)) := by
  constructor
  · intro he
    simp [nthNextLoop, afterNextCalls_empty caller k p hs he, getNextLoop_empty p caller hs he]
  · intro hN
    have h := afterNextCalls_spec caller k p 0 hs (by simpa using h0) hN
    simp only [Nat.zero_add] at h
    simp only [nthNextLoop, h, Option.some_bind]
    have h2 := getNextLoop_step { p with next_ := ((k % p.loops_.length : Nat) : Int) }
      caller (k % p.loops_.length) hs rfl (Nat.mod_lt k hN)
    rw [h2]
    rfl

/-- Witness for C1: on the three-worker pool built by `start`, call number 4
returns the worker at index 4 mod 3. -/
theorem getNextLoop_round_robin_witness :
    examplePool.loops_ = [10, 11, 12] ∧ nthNextLoop 1 examplePool 4 = some 11 :=
  ⟨by decide, (getNextLoop_round_robin examplePool 1 (by decide) (by decide) 4).2 (by decide)⟩

theorem getLoopForHash_eq (p : EventLoopThreadPool) (caller h : Nat) :
    getLoopForHash p caller h =
      some (if hN : 0 < p.loops_.length
              then p.loops_.get ⟨h % p.loops_.length, Nat.mod_lt h hN⟩
              else p.baseLoop_, p) := by
  by_cases hN : 0 < p.loops_.length
  · have hne : p.loops_ ≠ [] := by
      intro e; rw [e] at hN; simp at hN
    have hget : p.loops_[h % p.loops_.length]? =
        some (p.loops_.get ⟨h % p.loops_.length, Nat.mod_lt h hN⟩) := by
      simp [List.getElem?_eq_getElem (Nat.mod_lt h hN)]
    simp [getLoopForHash, assertInLoopThread_returned, hne, hget, hN]
  · have he : p.loops_ = [] := by
      cases hl : p.loops_ with
      | nil => rfl
      | cons a t => rw [hl] at hN; simp at hN
    simp [getLoopForHash, assertInLoopThread_returned, he]

/-- C2: `getLoopForHash h` returns the worker loop at index h mod N when the
pool has N >= 1 worker loops and the base loop when it has none, leaves the
pool (its round-robin cursor included) unchanged, and returns the same loop
after any number of `getNextLoop` calls made in between. -/
theorem getLoopForHash_affinity (p : EventLoopThreadPool) (caller h : Nat) :
    getLoopForHash p caller h =
      some (if hN : 0 < p.loops_.length
              then p.loops_.get ⟨h % p.loops_.length, Nat.mod_lt h hN⟩
              else p.baseLoop_, p) ∧
    ∀ (k : Nat) (q : EventLoopThreadPool), afterNextCalls caller k p = some q →
      (getLoopForHash q caller h).map Prod.fst = (getLoopForHash p caller h).map Prod.fst ∧
      (getLoopForHash q caller h).map Prod.snd = some q := by
  refine ⟨getLoopForHash_eq p caller h, ?_⟩
  intro k q hq
  obtain ⟨hl, hb, _⟩ := afterNextCalls_frame caller k p q hq
  constructor
  · simp only [getLoopForHash, assertInLoopThread_returned, hl, hb]
    split
    · rfl
    · cases p.loops_[h % p.loops_.length]? <;> rfl
  · rw [getLoopForHash_eq q caller h]
    rfl

/-- Witness for C2: on the three-worker pool, hash 7 maps to the worker at index
1 both before and after two `getNextLoop` calls. -/
theorem getLoopForHash_affinity_witness :
    (getLoopForHash examplePool 1 7).map Prod.fst = some 11 ∧
    ∃ q, afterNextCalls 1 2 examplePool = some q ∧ q.next_ = 2 ∧
      (getLoopForHash q 1 7).map Prod.fst = (getLoopForHash examplePool 1 7).map Prod.fst :=
  ⟨by decide, (({ examplePool with next_ := 2 } : EventLoopThreadPool)), by decide, by decide,
    ((getLoopForHash_affinity examplePool 1 7).2 2 _ (by decide)).1⟩

end EventLoopThreadPool

namespace Poller

theorem update_state (kernel : Kernel) (p : Poller) (op : CtlOp) (ch : Nat) :
    (update kernel p op ch).state =
      { p with ctl := p.ctl ++ [{ op := op, fd := (p.chan ch).fd,
                                  events := (p.chan ch).events, ptr := ch }] } := by
  unfold update
  simp only
  split
  · split <;> rfl
  · rfl

theorem update_status (kernel : Kernel) (p : Poller) (op : CtlOp) (ch : Nat) :
    (update kernel p op ch).status =
      if kernel p.ctl { op := op, fd := (p.chan ch).fd, events := (p.chan ch).events, ptr := ch } < 0
          ∧ op ≠ CtlOp.DEL
        then Status.fatal else Status.returned := by
  unfold update
  simp only
  split
  · rename_i hk
    by_cases hd : op = CtlOp.DEL
    · simp [hk, hd]
    · simp [hk, hd]
  · rename_i hk
    simp [hk]

/-- C3: when its assertions hold, `updateChannel` on a NEW channel inserts
fd -> channel in the map, on a DELETED channel leaves the map unchanged, and in
both cases issues exactly one ADD and sets the index to ADDED; on an ADDED
channel with empty interest it issues exactly one DEL, sets the index to
DELETED and keeps the map entry; on an ADDED channel with non-empty interest it
issues exactly one MOD and leaves the index ADDED.  The call returns, unless
the kernel refuses the ADD or MOD, in which case it ends in `LOG(FATAL)` after
these effects. -/
theorem updateChannel_reconciles (kernel : Kernel) (p : Poller) (caller ch : Nat)
    (hok : (updateChannel kernel p caller ch).status ≠ Status.assertFailed) :
    ((p.chan ch).index = kNew →
      p.channels_ (p.chan ch).fd = none ∧
      (updateChannel kernel p caller ch).state.ctl =
        p.ctl ++ [{ op := CtlOp.ADD, fd := (p.chan ch).fd, events := (p.chan ch).events,
                    ptr := ch }] ∧
      ((updateChannel kernel p caller ch).state.chan ch).index = kAdded ∧
      (updateChannel kernel p caller ch).state.channels_ =
        Function.update p.channels_ (p.chan ch).fd (some ch)) ∧
    ((p.chan ch).index = kDeleted →
      p.channels_ (p.chan ch).fd = some ch ∧
      (updateChannel kernel p caller ch).state.ctl =
        p.ctl ++ [{ op := CtlOp.ADD, fd := (p.chan ch).fd, events := (p.chan ch).events,
                    ptr := ch }] ∧
      ((updateChannel kernel p caller ch).state.chan ch).index = kAdded ∧
      (updateChannel kernel p caller ch).state.channels_ = p.channels_) ∧
    ((p.chan ch).index = kAdded → (p.chan ch).events = 0 →
      p.channels_ (p.chan ch).fd = some ch ∧
      (updateChannel kernel p caller ch).status = Status.returned ∧
      (updateChannel kernel p caller ch).state.ctl =
        p.ctl ++ [{ op := CtlOp.DEL, fd := (p.chan ch).fd, events := (p.chan ch).events,
                    ptr := ch }] ∧
      ((updateChannel kernel p caller ch).state.chan ch).index = kDeleted ∧
      (updateChannel kernel p caller ch).state.channels_ = p.channels_) ∧
    ((p.chan ch).index = kAdded → (p.chan ch).events ≠ 0 →
      p.channels_ (p.chan ch).fd = some ch ∧
      (updateChannel kernel p caller ch).state.ctl =
        p.ctl ++ [{ op := CtlOp.MOD, fd := (p.chan ch).fd, events := (p.chan ch).events,
                    ptr := ch }] ∧
      ((updateChannel kernel p caller ch).state.chan ch).index = kAdded ∧
      (updateChannel kernel p caller ch).state.channels_ = p.channels_) ∧
    ((p.chan ch).index = kNew ∨ (p.chan ch).index = kDeleted ∨ (p.chan ch).index = kAdded) ∧
    ((updateChannel kernel p caller ch).status = Status.returned ∨
      ((updateChannel kernel p caller ch).status = Status.fatal ∧
        ∃ op, op ≠ CtlOp.DEL ∧
          kernel p.ctl { op := op, fd := (p.chan ch).fd, events := (p.chan ch).events,
                         ptr := ch } < 0)) := by
  refine ⟨?_, ?_, ?_, ?_, ?_, ?_⟩
  · intro hi
    have hnone : p.channels_ (p.chan ch).fd = none := by
      by_contra hc
      apply hok
      simp [updateChannel, assertInLoopThread_returned, hi, hc]
    refine ⟨hnone, ?_, ?_, ?_⟩ <;>
      simp [updateChannel, assertInLoopThread_returned, hi, hnone, update_state, set_index]
  · intro hi
    have hnk : (kDeleted : Int) ≠ kNew := by decide
    have hsome : p.channels_ (p.chan ch).fd = some ch := by
      by_contra hc
      apply hok
      by_cases hn : p.channels_ (p.chan ch).fd = none
      · simp [updateChannel, assertInLoopThread_returned, hi, hnk, hn]
      · simp [updateChannel, assertInLoopThread_returned, hi, hnk, hn, hc]
    refine ⟨hsome, ?_, ?_, ?_⟩ <;>
      simp [updateChannel, assertInLoopThread_returned, hi, hnk, hsome, update_state, set_index]
  · intro hi he
    have h1 : (kAdded : Int) ≠ kNew := by decide
    have h2 : (kAdded : Int) ≠ kDeleted := by decide
    have hsome : p.channels_ (p.chan ch).fd = some ch := by
      by_contra hc
      apply hok
      by_cases hn : p.channels_ (p.chan ch).fd = none
      · simp [updateChannel, assertInLoopThread_returned, hi, h1, h2, hn]
      · simp [updateChannel, assertInLoopThread_returned, hi, h1, h2, hn, hc]
    have hst : (update kernel p CtlOp.DEL ch).status = Status.returned := by
      simp [update_status]
    refine ⟨hsome, ?_, ?_, ?_, ?_⟩ <;>
      simp [updateChannel, assertInLoopThread_returned, hi, h1, h2, hsome, Channel.isNoneEvent,
        he, hst, update_state, set_index]
  · intro hi he
    have h1 : (kAdded : Int) ≠ kNew := by decide
    have h2 : (kAdded : Int) ≠ kDeleted := by decide
    have hsome : p.channels_ (p.chan ch).fd = some ch := by
      by_contra hc
      apply hok
      by_cases hn : p.channels_ (p.chan ch).fd = none
      · simp [updateChannel, assertInLoopThread_returned, hi, h1, h2, hn]
      · simp [updateChannel, assertInLoopThread_returned, hi, h1, h2, hn, hc]
    refine ⟨hsome, ?_, ?_, ?_⟩ <;>
      simp [updateChannel, assertInLoopThread_returned, hi, h1, h2, hsome, Channel.isNoneEvent,
        he, update_state]
  · by_contra hc
    push_neg at hc
    apply hok
    by_cases hn : p.channels_ (p.chan ch).fd = none
    · simp [updateChannel, assertInLoopThread_returned, hc.1, hc.2.1, hn]
    · by_cases hs : p.channels_ (p.chan ch).fd = some ch
      · simp [updateChannel, assertInLoopThread_returned, hc.1, hc.2.1, hc.2.2, hs]
      · simp [updateChannel, assertInLoopThread_returned, hc.1, hc.2.1, hn, hs]
  · have hcases : ∀ (q : Poller) (op : CtlOp), q.ctl = p.ctl → (q.chan ch).fd = (p.chan ch).fd →
        (q.chan ch).events = (p.chan ch).events →
        (update kernel q op ch).status = Status.returned ∨
          ((update kernel q op ch).status = Status.fatal ∧
            ∃ op, op ≠ CtlOp.DEL ∧
              kernel p.ctl { op := op, fd := (p.chan ch).fd, events := (p.chan ch).events,
                             ptr := ch } < 0) := by
      intro q op h1 h2 h3
      rw [update_status, h1, h2, h3]
      split
      · rename_i hk
        exact Or.inr ⟨rfl, op, hk.2, hk.1⟩
      · exact Or.inl rfl
    unfold updateChannel
    rw [assertInLoopThread_returned]
    simp only
    split
    · split
      · split
        · exact absurd (by simp [updateChannel, assertInLoopThread_returned, *]) hok
        · exact hcases _ _ rfl (by simp [set_index]) (by simp [set_index])
      · split
        · exact absurd (by simp [updateChannel, assertInLoopThread_returned, *]) hok
        · split
          · exact absurd (by simp [updateChannel, assertInLoopThread_returned, *]) hok
          · exact hcases _ _ rfl (by simp [set_index]) (by simp [set_index])
    · split
      · exact absurd (by simp [updateChannel, assertInLoopThread_returned, *]) hok
      · split
        · exact absurd (by simp [updateChannel, assertInLoopThread_returned, *]) hok
        · split
          · exact absurd (by simp [updateChannel, assertInLoopThread_returned, *]) hok
          · split
            · left
              have hst : (update kernel p CtlOp.DEL ch).status = Status.returned := by
                simp [update_status]
              simp [hst]
            · exact hcases _ _ rfl rfl rfl

/-- Witness for C3: on the empty poller, updating the NEW channel 0 (fd 5, read
interest) issues one ADD, marks it ADDED and maps fd 5 to it. -/
theorem updateChannel_reconciles_witness :
    (updateChannel okKernel examplePoller 1 0).status ≠ Status.assertFailed ∧
    (updateChannel okKernel examplePoller 1 0).state.ctl =
      [{ op := CtlOp.ADD, fd := 5, events := 1, ptr := 0 }] ∧
    ((updateChannel okKernel examplePoller 1 0).state.chan 0).index = kAdded :=
  ⟨by decide,
   ((updateChannel_reconciles okKernel examplePoller 1 0 (by decide)).1 rfl).2.1,
   ((updateChannel_reconciles okKernel examplePoller 1 0 (by decide)).1 rfl).2.2.1⟩

/-- C4: for a channel that is in the fd map with an empty interest mask and
index ADDED or DELETED, `removeChannel` returns, erases exactly that fd's entry
(every other entry unchanged), issues a DEL if and only if the index was ADDED,
leaves the index NEW, and `hasChannel` is false afterwards; with a non-empty
interest mask the call ends in a failed assertion with the poller unchanged. -/
theorem removeChannel_contract (kernel : Kernel) (p : Poller) (caller ch : Nat) :
    (p.channels_ (p.chan ch).fd = some ch → (p.chan ch).events = 0 →
      ((p.chan ch).index = kAdded ∨ (p.chan ch).index = kDeleted) →
      (removeChannel kernel p caller ch).status = Status.returned ∧
      (∀ k, (removeChannel kernel p caller ch).state.channels_ k =
        if k = (p.chan ch).fd then none else p.channels_ k) ∧
      (removeChannel kernel p caller ch).state.ctl =
        (if (p.chan ch).index = kAdded
          then p.ctl ++ [{ op := CtlOp.DEL, fd := (p.chan ch).fd, events := (p.chan ch).events,
                           ptr := ch }]
          else p.ctl) ∧
      ((removeChannel kernel p caller ch).state.chan ch).index = kNew ∧
      hasChannel (removeChannel kernel p caller ch).state caller ch = some false) ∧
    ((p.chan ch).events ≠ 0 →
      (removeChannel kernel p caller ch).status = Status.assertFailed ∧
      (removeChannel kernel p caller ch).state = p) := by
  constructor
  · intro hmap hev hidx
    have hst : (update kernel { p with channels_ := Function.update p.channels_ (p.chan ch).fd none }
        CtlOp.DEL ch).status = Status.returned := by
      simp [update_status]
    have hupd : ∀ k, Function.update p.channels_ (p.chan ch).fd none k =
        if k = (p.chan ch).fd then none else p.channels_ k := by
      intro k
      by_cases hk : k = (p.chan ch).fd
      · subst hk
        simp
      · simp [hk, Function.update_noteq hk]
    rcases hidx with hi | hi
    · have h1 : (kAdded : Int) ≠ kDeleted := by decide
      refine ⟨?_, ?_, ?_, ?_, ?_⟩
      · simp [removeChannel, assertInLoopThread_returned, hmap, hev, hi, Channel.isNoneEvent, hst]
      · intro k
        simp [removeChannel, assertInLoopThread_returned, hmap, hev, hi, Channel.isNoneEvent, hst,
          update_state, set_index, hupd]
      · simp [removeChannel, assertInLoopThread_returned, hmap, hev, hi, Channel.isNoneEvent, hst,
          update_state, set_index]
      · simp [removeChannel, assertInLoopThread_returned, hmap, hev, hi, Channel.isNoneEvent, hst,
          update_state, set_index]
      · simp [removeChannel, hasChannel, assertInLoopThread_returned, hmap, hev, hi,
          Channel.isNoneEvent, hst, update_state, set_index]
    · have h1 : (kDeleted : Int) ≠ kAdded := by decide
      refine ⟨?_, ?_, ?_, ?_, ?_⟩
      · simp [removeChannel, assertInLoopThread_returned, hmap, hev, hi, h1, Channel.isNoneEvent]
      · intro k
        simp [removeChannel, assertInLoopThread_returned, hmap, hev, hi, h1, Channel.isNoneEvent,
          set_index, hupd]
      · simp [removeChannel, assertInLoopThread_returned, hmap, hev, hi, h1, Channel.isNoneEvent,
          set_index]
      · simp [removeChannel, assertInLoopThread_returned, hmap, hev, hi, h1, Channel.isNoneEvent,
          set_index]
      · simp [removeChannel, hasChannel, assertInLoopThread_returned, hmap, hev, hi, h1,
          Channel.isNoneEvent, set_index]
  · intro hev
    by_cases hn : p.channels_ (p.chan ch).fd = none
    · simp [removeChannel, assertInLoopThread_returned, hn]
    · by_cases hs : p.channels_ (p.chan ch).fd = some ch
      · simp [removeChannel, assertInLoopThread_returned, hs, hev, Channel.isNoneEvent]
      · simp [removeChannel, assertInLoopThread_returned, hn, hs]

/-- Witness for C4: removing the disarmed ADDED channel 0 (fd 5) returns, issues
one DEL, empties the entry of fd 5 and keeps the entry of fd 6. -/
theorem removeChannel_contract_witness :
    (removeChannel okKernel armedPoller 1 0).status = Status.returned ∧
    (removeChannel okKernel armedPoller 1 0).state.channels_ 5 = none ∧
    (removeChannel okKernel armedPoller 1 0).state.channels_ 6 = some 1 ∧
    (removeChannel okKernel armedPoller 1 1).status = Status.assertFailed :=
  ⟨((removeChannel_contract okKernel armedPoller 1 0).1 rfl rfl (Or.inl rfl)).1,
   ((removeChannel_contract okKernel armedPoller 1 0).1 rfl rfl (Or.inl rfl)).2.1 5,
   ((removeChannel_contract okKernel armedPoller 1 0).1 rfl rfl (Or.inl rfl)).2.1 6,
   ((removeChannel_contract okKernel armedPoller 1 1).2 (by decide)).1⟩

end Poller

namespace EventLoop

/-- C5 (the code at the failing input): thread 2 calls `updateChannel`,
`hasChannel` and `removeChannel` on the loop owned by thread 1; none of the
calls aborts, the ADD is issued, the channel is reported present, and the
removal of the disarmed ADDED channel is performed. -/
theorem wrong_thread_call_is_performed :
    isInLoopThread exampleLoop.threadId_ 2 = false ∧
    (updateChannel okKernel exampleLoop 2 0).status = Status.returned ∧
    (updateChannel okKernel exampleLoop 2 0).state.poller_.ctl =
      [{ op := CtlOp.ADD, fd := 3, events := 3, ptr := 50 },
       { op := CtlOp.ADD, fd := 5, events := 1, ptr := 0 }] ∧
    hasChannel (updateChannel okKernel exampleLoop 2 0).state 2 0 = some true ∧
    (removeChannel okKernel { exampleLoop with poller_ := armedPoller } 2 0).status =
      Status.returned ∧
    (removeChannel okKernel { exampleLoop with poller_ := armedPoller } 2 0).state.poller_.ctl =
      [{ op := CtlOp.DEL, fd := 5, events := 0, ptr := 0 }] := by
  refine ⟨by decide, by decide, by decide, by decide, by decide, by decide⟩

end EventLoop

namespace RpcChannel

theorem handle_response_found (st : RpcChannel) (m : RpcMessage) (out : OutstandingCall)
    (hout : st.outstandings_ m.id = some out) :
    (handle_response_msg st m).outstandings_ = Function.update st.outstandings_ m.id none := by
  unfold handle_response_msg
  simp only [hout, Option.getD_some]
  cases hr : out.response with
  | none => rfl
  | some slot =>
    simp only
    by_cases hb : m.response = []
    · cases out.done <;> simp [hb]
    · cases out.done <;> simp [hb]

/-- C6: for an id that is outstanding with the response slot and the
continuation registered for it, an inbound RESPONSE carrying that id returns,
removes exactly that entry from the outstanding table (every other entry
unchanged), parses a non-empty payload into the registered slot, and runs the
registered continuation exactly once and no other continuation. -/
theorem response_completes_call (st : RpcChannel) (m : RpcMessage) (slot done : Nat)
    (ht : m.type = MessageType.RESPONSE)
    (hout : st.outstandings_ m.id = some { response := some slot, done := some done }) :
    (onRpcMessage st st.conn_ m).status = Status.returned ∧
    (onRpcMessage st st.conn_ m).state.outstandings_ m.id = none ∧
    (∀ k, k ≠ m.id →
      (onRpcMessage st st.conn_ m).state.outstandings_ k = st.outstandings_ k) ∧
    (onRpcMessage st st.conn_ m).state.effects =
      st.effects ++ (if m.response ≠ [] then [Effect.parse slot m.response] else []) ++
        [Effect.run done, Effect.free slot] ∧
    List.count (Effect.run done) (onRpcMessage st st.conn_ m).state.effects =
      List.count (Effect.run done) st.effects + 1 ∧
    (∀ d, d ≠ done →
      List.count (Effect.run d) (onRpcMessage st st.conn_ m).state.effects =
        List.count (Effect.run d) st.effects) := by
  have hon : onRpcMessage st st.conn_ m =
      { status := Status.returned, state := handle_response_msg st m } := by
    simp [onRpcMessage, ht]
  rw [hon]
  have htab := handle_response_found st m _ hout
  have he : (handle_response_msg st m).effects =
      st.effects ++ (if m.response ≠ [] then [Effect.parse slot m.response] else []) ++
        [Effect.run done, Effect.free slot] := by
    unfold handle_response_msg
    simp only [hout, Option.getD_some]
    by_cases hb : m.response = []
    · simp [hb]
    · simp [hb]
  refine ⟨rfl, ?_, ?_, he, ?_, ?_⟩
  · show (handle_response_msg st m).outstandings_ m.id = none
    rw [htab]
    simp
  · intro k hk
    show (handle_response_msg st m).outstandings_ k = st.outstandings_ k
    rw [htab, Function.update_noteq hk]
  · simp only [he]
    by_cases hb : m.response = []
    · simp [hb, List.count_cons]
    · simp [hb, List.count_cons]
  · intro d hd
    simp only [he]
    by_cases hb : m.response = []
    · simp [hb, List.count_cons, hd.symm]
    · simp [hb, List.count_cons, hd.symm]

/-- Witness for C6: the RESPONSE to the call outstanding on `clientChannel`
(id 1, slot 40, continuation 41) empties the entry and runs continuation 41. -/
theorem response_completes_call_witness :
    clientChannel.outstandings_ 1 = some { response := some 40, done := some 41 } ∧
    (onRpcMessage clientChannel clientChannel.conn_
      { RpcMessage.empty with type := MessageType.RESPONSE, id := 1, response := [7] }).state.effects =
      clientChannel.effects ++ [Effect.parse 40 [7], Effect.run 41, Effect.free 40] :=
  ⟨by decide,
   (response_completes_call clientChannel
      { RpcMessage.empty with type := MessageType.RESPONSE, id := 1, response := [7] }
      40 41 rfl (by decide)).2.2.2.1⟩

/-- C7: an inbound RESPONSE whose id is not a key of the outstanding table
returns with the channel unchanged: same table, no continuation run, no
response slot written, nothing sent. -/
theorem unknown_response_dropped (st : RpcChannel) (m : RpcMessage)
    (ht : m.type = MessageType.RESPONSE) (hnone : st.outstandings_ m.id = none) :
    onRpcMessage st st.conn_ m = { status := Status.returned, state := st } := by
  simp [onRpcMessage, ht, handle_response_msg, hnone]

/-- Witness for C7: a RESPONSE with id 5 on `clientChannel`, where only id 1 is
outstanding. -/
theorem unknown_response_dropped_witness :
    clientChannel.outstandings_ 5 = none ∧
    (onRpcMessage clientChannel clientChannel.conn_
      { RpcMessage.empty with type := MessageType.RESPONSE, id := 5, response := [7] }).state.effects =
      clientChannel.effects :=
  ⟨by decide,
   congrArg (fun o => o.state.effects) (unknown_response_dropped clientChannel
      { RpcMessage.empty with type := MessageType.RESPONSE, id := 5, response := [7] }
      rfl (by decide))⟩

/-- C8 (amended): an inbound message of type ERROR is ignored: the call returns
with the channel unchanged, so the entry of an outstanding id stays in the
table and no continuation is fired. -/
theorem error_message_ignored (st : RpcChannel) (m : RpcMessage)
    (ht : m.type = MessageType.ERROR) :
    onRpcMessage st st.conn_ m = { status := Status.returned, state := st } := by
  simp [onRpcMessage, ht]

/-- Witness for C8 (amended): an ERROR with the outstanding id 1 leaves
`clientChannel` as it was. -/
theorem error_message_ignored_witness :
    (onRpcMessage clientChannel clientChannel.conn_
      { RpcMessage.empty with type := MessageType.ERROR, id := 1 }).state.effects =
      clientChannel.effects :=
  congrArg (fun o => o.state.effects) (error_message_ignored clientChannel
    { RpcMessage.empty with type := MessageType.ERROR, id := 1 } rfl)

/-- C8 (counterexample): id 1 is outstanding on `clientChannel` with slot 40 and
continuation 41; after an inbound ERROR carrying id 1 the entry is still in the
table and the continuation has not been run. -/
theorem error_message_keeps_entry :
    clientChannel.outstandings_ 1 = some { response := some 40, done := some 41 } ∧
    (onRpcMessage clientChannel (some 9)
      { RpcMessage.empty with type := MessageType.ERROR, id := 1 }).state.outstandings_ 1 =
      some { response := some 40, done := some 41 } ∧
    List.count (Effect.run 41) (onRpcMessage clientChannel (some 9)
      { RpcMessage.empty with type := MessageType.ERROR, id := 1 }).state.effects = 0 := by
  refine ⟨by decide, by decide, by decide⟩

theorem request_failure_reply (st : RpcChannel) (m : RpcMessage) (code : ErrorCode)
    (ht : m.type = MessageType.REQUEST) (hd : dispatchRequest st m = some (code, st))
    (hne : code ≠ ErrorCode.NO_ERROR) :
    onRpcMessage st st.conn_ m =
      { status := Status.returned,
        state := { st with effects := st.effects ++ [Effect.send st.conn_
          { RpcMessage.empty with type := MessageType.RESPONSE, id := m.id, error := code }] } } := by
  simp [onRpcMessage, ht, handle_request_msg, hd, hne, send]

/-- C9 (amended): for an inbound REQUEST whose service lookup, method lookup or
request parse fails, exactly one reply is sent; it carries the id of the
request and a non-NO_ERROR error code, and its type is RESPONSE. -/
theorem failed_dispatch_reply (st : RpcChannel) (m : RpcMessage)
    (ht : m.type = MessageType.REQUEST)
    (hfail : st.services_ = none ∨
      (∃ services, st.services_ = some services ∧ services m.service = none) ∨
      (∃ services svc, st.services_ = some services ∧ services m.service = some (some svc) ∧
        svc.FindMethodByName m.method = none) ∨
      (∃ services svc meth, st.services_ = some services ∧
        services m.service = some (some svc) ∧ svc.FindMethodByName m.method = some meth ∧
        svc.ParseFromString meth m.request = false)) :
    ∃ reply : RpcMessage,
      (onRpcMessage st st.conn_ m).state.effects = st.effects ++ [Effect.send st.conn_ reply] ∧
      reply.type = MessageType.RESPONSE ∧ reply.id = m.id ∧
      reply.error ≠ ErrorCode.NO_ERROR := by
  have key : ∀ code : ErrorCode, dispatchRequest st m = some (code, st) →
      code ≠ ErrorCode.NO_ERROR →
      ∃ reply : RpcMessage,
        (onRpcMessage st st.conn_ m).state.effects = st.effects ++ [Effect.send st.conn_ reply] ∧
        reply.type = MessageType.RESPONSE ∧ reply.id = m.id ∧
        reply.error ≠ ErrorCode.NO_ERROR := by
    intro code hd hne
    rw [request_failure_reply st m code ht hd hne]
    exact ⟨_, rfl, rfl, rfl, hne⟩
  rcases hfail with h | ⟨services, h1, h2⟩ | ⟨services, svc, h1, h2, h3⟩ |
    ⟨services, svc, meth, h1, h2, h3, h4⟩
  · exact key ErrorCode.NO_SERVICE (by simp [dispatchRequest, h]) (by decide)
  · exact key ErrorCode.NO_SERVICE (by simp [dispatchRequest, h1, h2]) (by decide)
  · exact key ErrorCode.NO_METHOD (by simp [dispatchRequest, h1, h2, h3]) (by decide)
  · exact key ErrorCode.INVALID_REQUEST (by simp [dispatchRequest, h1, h2, h3, h4]) (by decide)

/-- Witness for C9 (amended): a REQUEST with id 42 for a service that is not
registered on `serverChannel`. -/
theorem failed_dispatch_reply_witness :
    ∃ reply : RpcMessage,
      (onRpcMessage serverChannel serverChannel.conn_
        { RpcMessage.empty with id := 42, service := "nope", method := "F" }).state.effects =
        serverChannel.effects ++ [Effect.send serverChannel.conn_ reply] ∧
      reply.type = MessageType.RESPONSE ∧ reply.id = 42 ∧ reply.error ≠ ErrorCode.NO_ERROR :=
  failed_dispatch_reply serverChannel
    { RpcMessage.empty with id := 42, service := "nope", method := "F" } rfl
    (Or.inr (Or.inl ⟨exampleServices, rfl, rfl⟩))

/-- C9 (counterexample): the reply to a REQUEST with id 42 for an unregistered
service is a message of type RESPONSE, not of type ERROR. -/
theorem dispatch_failure_typed_response :
    (onRpcMessage serverChannel (some 9)
      { RpcMessage.empty with id := 42, service := "nope", method := "F" }).state.effects =
      [Effect.send (some 9)
        { RpcMessage.empty with
          type := MessageType.RESPONSE, id := 42, error := ErrorCode.NO_SERVICE }] ∧
    ({ RpcMessage.empty with
        type := MessageType.RESPONSE, id := 42, error := ErrorCode.NO_SERVICE } : RpcMessage).type
      ≠ MessageType.ERROR := by
  refine ⟨by decide, by decide⟩

/-- C10: for an inbound REQUEST, with no service table or an unregistered
service name the reply's error code is NO_SERVICE, with the service found but
not the method it is NO_METHOD, with both found but the request bytes not
parsing it is INVALID_REQUEST; in each of these cases exactly one reply is
sent, it carries the request's id, and the service is not invoked.  When all
three steps succeed the service is invoked exactly once and the only message
that can follow is the service's own completed response, with error code
NO_ERROR. -/
theorem request_error_code (st : RpcChannel) (m : RpcMessage)
    (ht : m.type = MessageType.REQUEST) :
    (st.services_ = none →
      onRpcMessage st st.conn_ m =
        { status := Status.returned,
          state := { st with effects := st.effects ++ [Effect.send st.conn_
            { RpcMessage.empty with
              type := MessageType.RESPONSE, id := m.id, error := ErrorCode.NO_SERVICE }] } }) ∧
    (∀ services, st.services_ = some services → services m.service = none →
      onRpcMessage st st.conn_ m =
        { status := Status.returned,
          state := { st with effects := st.effects ++ [Effect.send st.conn_
            { RpcMessage.empty with
              type := MessageType.RESPONSE, id := m.id, error := ErrorCode.NO_SERVICE }] } }) ∧
    (∀ services svc, st.services_ = some services → services m.service = some (some svc) →
      svc.FindMethodByName m.method = none →
      onRpcMessage st st.conn_ m =
        { status := Status.returned,
          state := { st with effects := st.effects ++ [Effect.send st.conn_
            { RpcMessage.empty with
              type := MessageType.RESPONSE, id := m.id, error := ErrorCode.NO_METHOD }] } }) ∧
    (∀ services svc meth, st.services_ = some services →
      services m.service = some (some svc) → svc.FindMethodByName m.method = some meth →
      svc.ParseFromString meth m.request = false →
      onRpcMessage st st.conn_ m =
        { status := Status.returned,
          state := { st with effects := st.effects ++ [Effect.send st.conn_
            { RpcMessage.empty with
              type := MessageType.RESPONSE, id := m.id,
              error := ErrorCode.INVALID_REQUEST }] } }) ∧
    (∀ services svc meth, st.services_ = some services →
      services m.service = some (some svc) → svc.FindMethodByName m.method = some meth →
      svc.ParseFromString meth m.request = true →
      (onRpcMessage st st.conn_ m).status = Status.returned ∧
      (onRpcMessage st st.conn_ m).state.effects =
        st.effects ++ [Effect.dispatch m.service meth m.request m.id] ++
          (match svc.CallMethod meth m.request with
            | some r => [Effect.send st.conn_
                { RpcMessage.empty with type := MessageType.RESPONSE, id := m.id, response := r }]
            | none => [])) := by
  refine ⟨?_, ?_, ?_, ?_, ?_⟩
  · intro h
    exact request_failure_reply st m _ ht (by simp [dispatchRequest, h]) (by decide)
  · intro services h1 h2
    exact request_failure_reply st m _ ht (by simp [dispatchRequest, h1, h2]) (by decide)
  · intro services svc h1 h2 h3
    exact request_failure_reply st m _ ht (by simp [dispatchRequest, h1, h2, h3]) (by decide)
  · intro services svc meth h1 h2 h3 h4
    exact request_failure_reply st m _ ht (by simp [dispatchRequest, h1, h2, h3, h4])
      (by decide)
  · intro services svc meth h1 h2 h3 h4
    cases hc : svc.CallMethod meth m.request with
    | none =>
      simp [onRpcMessage, ht, handle_request_msg, dispatchRequest, h1, h2, h3, h4, hc]
    | some r =>
      simp [onRpcMessage, ht, handle_request_msg, dispatchRequest, h1, h2, h3, h4, hc,
        doneCallback, send]

/-- Witness for C10: on `serverChannel` a REQUEST with id 42 for the registered
service gets NO_METHOD for an unknown method and INVALID_REQUEST for a request
that does not parse, and is dispatched once when everything is found. -/
theorem request_error_code_witness :
    (onRpcMessage serverChannel serverChannel.conn_
      { RpcMessage.empty with id := 42, service := "monitor.TestService", method := "F" }).state.effects =
      [Effect.send (some 9)
        { RpcMessage.empty with
          type := MessageType.RESPONSE, id := 42, error := ErrorCode.NO_METHOD }] ∧
    (onRpcMessage serverChannel serverChannel.conn_
      { RpcMessage.empty with
        id := 42, service := "monitor.TestService", method := "MonitorInfo",
        request := [255] }).state.effects =
      [Effect.send (some 9)
        { RpcMessage.empty with
          type := MessageType.RESPONSE, id := 42, error := ErrorCode.INVALID_REQUEST }] ∧
    (onRpcMessage serverChannel serverChannel.conn_
      { RpcMessage.empty with
        id := 42, service := "monitor.TestService", method := "MonitorInfo",
        request := [3] }).state.effects =
      [Effect.dispatch "monitor.TestService" 0 [3] 42,
       Effect.send (some 9)
        { RpcMessage.empty with type := MessageType.RESPONSE, id := 42, response := [1, 3] }] :=
  ⟨congrArg (fun o => o.state.effects)
     ((request_error_code serverChannel
        { RpcMessage.empty with id := 42, service := "monitor.TestService", method := "F" }
        rfl).2.2.1 exampleServices exampleService rfl rfl rfl),
   congrArg (fun o => o.state.effects)
     ((request_error_code serverChannel
        { RpcMessage.empty with
          id := 42, service := "monitor.TestService", method := "MonitorInfo",
          request := [255] }
        rfl).2.2.2.1 exampleServices exampleService 0 rfl rfl rfl rfl),
   ((request_error_code serverChannel
        { RpcMessage.empty with
          id := 42, service := "monitor.TestService", method := "MonitorInfo",
          request := [3] }
        rfl).2.2.2.2 exampleServices exampleService 0 rfl rfl rfl rfl).2⟩

/-- C11: for a REQUEST that is dispatched (service and method found, request
parsed), the continuation handed to the service is `doneCallback` bound to the
request's id: invoking it in any channel state with the response the service
filled in sends exactly one message, of type RESPONSE, with the request's id and
the serialized response, and changes nothing else; a service that invokes it
before returning leaves exactly that message after the dispatch. -/
theorem done_sends_response (st : RpcChannel) (m : RpcMessage)
    (services : String → Option (Option Service)) (svc : Service) (meth : Nat)
    (ht : m.type = MessageType.REQUEST) (h1 : st.services_ = some services)
    (h2 : services m.service = some (some svc)) (h3 : svc.FindMethodByName m.method = some meth)
    (h4 : svc.ParseFromString meth m.request = true) :
    (∃ rest, (onRpcMessage st st.conn_ m).state.effects =
      st.effects ++ Effect.dispatch m.service meth m.request m.id :: rest) ∧
    (∀ (st1 : RpcChannel) (r : Bytes),
      doneCallback st1 r m.id =
        { st1 with effects := st1.effects ++ [Effect.send st1.conn_
          { RpcMessage.empty with type := MessageType.RESPONSE, id := m.id, response := r }] }) ∧
    (∀ r, svc.CallMethod meth m.request = some r →
      (onRpcMessage st st.conn_ m).state =
        doneCallback
          { st with effects := st.effects ++ [Effect.dispatch m.service meth m.request m.id] }
          r m.id) := by
  refine ⟨?_, ?_, ?_⟩
  · cases hc : svc.CallMethod meth m.request with
    | none =>
      exact ⟨[], by
        simp [onRpcMessage, ht, handle_request_msg, dispatchRequest, h1, h2, h3, h4, hc]⟩
    | some r =>
      exact ⟨[Effect.send st.conn_
          { RpcMessage.empty with type := MessageType.RESPONSE, id := m.id, response := r }], by
        simp [onRpcMessage, ht, handle_request_msg, dispatchRequest, h1, h2, h3, h4, hc,
          doneCallback, send]⟩
  · intro st1 r
    rfl
  · intro r hc
    simp [onRpcMessage, ht, handle_request_msg, dispatchRequest, h1, h2, h3, h4, hc]

/-- Witness for C11: on `serverChannel` the request with id 42 and bytes [3] is
dispatched to the example service, which completes at once with [1, 3]. -/
theorem done_sends_response_witness :
    (onRpcMessage serverChannel serverChannel.conn_
      { RpcMessage.empty with
        id := 42, service := "monitor.TestService", method := "MonitorInfo",
        request := [3] }).state =
      doneCallback
        { serverChannel with effects := serverChannel.effects ++
            [Effect.dispatch "monitor.TestService" 0 [3] 42] }
        [1, 3] 42 :=
  (done_sends_response serverChannel
    { RpcMessage.empty with
      id := 42, service := "monitor.TestService", method := "MonitorInfo", request := [3] }
    exampleServices exampleService 0 rfl rfl rfl rfl rfl).2.2 [1, 3] rfl

theorem CallMethod_next_id (st : RpcChannel) (method : MethodDescriptor) (request : Bytes)
    (response done : Option Nat) (hlo : -(2 ^ 63) ≤ st.id_) (hhi : st.id_ < 2 ^ 63 - 1) :
    (CallMethod st method request response done).id_ = st.id_ + 1 ∧
    lastSentId (CallMethod st method request response done) = some (st.id_ + 1) := by
  have hw : wrap64 (st.id_ + 1) = st.id_ + 1 := by
    unfold wrap64
    norm_num at hlo hhi ⊢
    omega
  refine ⟨hw, ?_⟩
  simp [lastSentId, CallMethod, send, hw]

/-- C12 (the code at the failing input): the constructors give `id_` no value;
on a fresh channel whose `id_` storage holds -5 the first `CallMethod` issues
id -4, which is not positive and not 1, and the next one issues -3. -/
theorem first_id_follows_uninitialised_counter :
    (RpcChannel.new (some 9) (-5)).id_ = -5 ∧
    lastSentId (CallMethod (RpcChannel.new (some 9) (-5)) exampleMethod [] (some 40) (some 41))
      = some (-4) ∧
    lastSentId (CallMethod
      (CallMethod (RpcChannel.new (some 9) (-5)) exampleMethod [] (some 40) (some 41))
      exampleMethod [] (some 42) (some 43)) = some (-3) := by
  refine ⟨by decide, by decide, by decide⟩

end RpcChannel

namespace Poller

theorem stampRevents_cons (e : EpollEvent) (events : List EpollEvent) (chan : Nat → Channel) :
    stampRevents (e :: events) chan =
      stampRevents events (Function.update chan e.ptr { chan e.ptr with revents := e.events }) :=
  rfl

theorem stampRevents_other (events : List EpollEvent) :
    ∀ (chan : Nat → Channel) (c : Nat), (∀ e ∈ events, e.ptr ≠ c) →
      stampRevents events chan c = chan c := by
  induction events with
  | nil => intro chan c _; rfl
  | cons e rest ih =>
    intro chan c h
    rw [stampRevents_cons, ih _ c (fun e' he' => h e' (List.mem_cons_of_mem _ he'))]
    have hne : c ≠ e.ptr := fun hc => h e (List.mem_cons_self _ _) hc.symm
    exact Function.update_noteq hne _ _

theorem stampRevents_mask (events : List EpollEvent) :
    ∀ (chan : Nat → Channel) (e : EpollEvent), e ∈ events →
      (∀ e2 ∈ events, e2.ptr = e.ptr → e2.events = e.events) →
      (stampRevents events chan e.ptr).revents = e.events := by
  induction events with
  | nil => intro chan e he; simp at he
  | cons e0 rest ih =>
    intro chan e he hcons
    rw [stampRevents_cons]
    by_cases hr : ∃ e2 ∈ rest, e2.ptr = e.ptr
    · obtain ⟨e2, he2, hp⟩ := hr
      have hm : e2.events = e.events := hcons e2 (List.mem_cons_of_mem _ he2) hp
      have h := ih (Function.update chan e0.ptr { chan e0.ptr with revents := e0.events }) e2 he2
        (fun e3 he3 hp3 => by
          rw [hm]
          exact hcons e3 (List.mem_cons_of_mem _ he3) (hp3.trans hp))
      rw [hp, hm] at h
      exact h
    · push_neg at hr
      rw [stampRevents_other rest _ e.ptr hr]
      rcases List.mem_cons.mp he with h0 | h0
      · subst h0
        simp
      · exact absurd rfl (hr e h0)

theorem fillLoop_spec (events : List EpollEvent) :
    ∀ (p : Poller) (active : List Nat),
      (fillLoop p events active).status ≠ Status.assertFailed →
      fillLoop p events active =
        { status := Status.returned,
          state := ({ p with chan := stampRevents events p.chan },
                    active ++ events.map (fun e => e.ptr)) } := by
  induction events with
  | nil =>
    intro p active _
    simp [fillLoop, stampRevents]
  | cons e rest ih =>
    intro p active h
    unfold fillLoop at h ⊢
    by_cases h1 : p.channels_ (p.chan e.ptr).fd = none
    · simp [h1] at h
    · by_cases h2 : p.channels_ (p.chan e.ptr).fd = some e.ptr
      · simp only [h1, h2, ne_eq, not_true_eq_false, if_false] at h ⊢
        rw [ih _ _ h]
        simp [set_revents, stampRevents_cons]
      · simp [h1, h2] at h

/-- C19: when the wait reports n > 0 ready events and the asserts hold, `poll`
returns with exactly those n channels appended, in the reported order, after
what the active-channel list already held; every reported channel has its
readiness mask set to the mask reported for it and every other channel object
is unchanged; the readiness vector's size is doubled if n equals its size and
is unchanged otherwise.  When the wait reports 0 events or fails with any errno,
`poll` returns with the poller and the active-channel list unchanged. -/
theorem poll_output (p : Poller) (active : List Nat) :
    (∀ events : List EpollEvent, 0 < events.length →
      (poll p (EpollWait.ready events) active).status ≠ Status.assertFailed →
      (poll p (EpollWait.ready events) active).status = Status.returned ∧
      (poll p (EpollWait.ready events) active).state.2 =
        active ++ events.map (fun e => e.ptr) ∧
      ((poll p (EpollWait.ready events) active).state.2).length =
        active.length + events.length ∧
      (∀ e ∈ events, (∀ e2 ∈ events, e2.ptr = e.ptr → e2.events = e.events) →
        ((poll p (EpollWait.ready events) active).state.1.chan e.ptr).revents = e.events) ∧
      (∀ c, (∀ e ∈ events, e.ptr ≠ c) →
        (poll p (EpollWait.ready events) active).state.1.chan c = p.chan c) ∧
      (poll p (EpollWait.ready events) active).state.1.eventsSize =
        (if events.length = p.eventsSize then p.eventsSize * 2 else p.eventsSize)) ∧
    poll p (EpollWait.ready []) active = { status := Status.returned, state := (p, active) } ∧
    (∀ errno : Int,
      poll p (EpollWait.failed errno) active =
        { status := Status.returned, state := (p, active) }) := by
  refine ⟨?_, rfl, fun _ => rfl⟩
  intro events hpos hok
  have hlen : events.length ≤ p.eventsSize := by
    by_contra hc
    apply hok
    simp [poll, hpos, fillActiveChannels, hc]
  have hfill : (fillLoop p events active).status ≠ Status.assertFailed := by
    intro hc
    apply hok
    simp [poll, hpos, fillActiveChannels, hlen, hc]
  have hspec := fillLoop_spec events p active hfill
  have hpoll : poll p (EpollWait.ready events) active =
      { status := Status.returned,
        state := ({ p with
                    chan := stampRevents events p.chan,
                    eventsSize := if events.length = p.eventsSize then p.eventsSize * 2
                                  else p.eventsSize },
                  active ++ events.map (fun e => e.ptr)) } := by
    have hfa : fillActiveChannels p events active =
        { status := Status.returned,
          state := ({ p with chan := stampRevents events p.chan },
                    active ++ events.map (fun e => e.ptr)) } := by
      rw [fillActiveChannels, if_neg (not_not.mpr hlen), hspec]
    unfold poll
    simp only [hpos, if_true, hfa]
    by_cases he : events.length = p.eventsSize
    · rw [if_pos he, if_pos he]
    · rw [if_neg he, if_neg he]
  rw [hpoll]
  refine ⟨rfl, rfl, by simp, ?_, ?_, rfl⟩
  · intro e he hcons
    exact stampRevents_mask events p.chan e he hcons
  · intro c hc
    exact stampRevents_other events p.chan c hc

/-- Witness for C19: on `armedPoller` the wait reports channel 1 with mask 1 and
then channel 0 with mask 4; both are appended in that order after channel 7. -/
theorem poll_output_witness :
    (poll armedPoller (EpollWait.ready [{ events := 1, ptr := 1 }, { events := 4, ptr := 0 }])
      [7]).state.2 = [7, 1, 0] ∧
    ((poll armedPoller (EpollWait.ready [{ events := 1, ptr := 1 }, { events := 4, ptr := 0 }])
      [7]).state.1.chan 0).revents = 4 :=
  ⟨((poll_output armedPoller [7]).1 [{ events := 1, ptr := 1 }, { events := 4, ptr := 0 }]
      (by decide) (by decide)).2.1,
   ((poll_output armedPoller [7]).1 [{ events := 1, ptr := 1 }, { events := 4, ptr := 0 }]
      (by decide) (by decide)).2.2.2.1 { events := 4, ptr := 0 } (by decide) (by decide)⟩

end Poller

theorem interest_snoc (t : List EpollCtl) (call : EpollCtl) :
    interest (t ++ [call]) =
      (match call.op with
        | CtlOp.DEL => Function.update (interest t) call.fd none
        | _ => Function.update (interest t) call.fd (some call.ptr)) := by
  simp [interest, List.foldl_append]

namespace Poller

theorem others_new (p : Poller) (hp : Consistent p) (ch : Nat)
    (hm : p.channels_ (p.chan ch).fd = none ∨ p.channels_ (p.chan ch).fd = some ch) :
    ∀ c, c ≠ ch → (p.chan c).fd = (p.chan ch).fd → (p.chan c).index = kNew := by
  intro c hc hfd
  obtain ⟨h1, h2, _⟩ := hp c
  have hnot : ¬ (p.channels_ (p.chan c).fd = some c) := by
    rw [hfd]
    rcases hm with h | h
    · rw [h]; simp
    · rw [h]
      intro e
      exact hc (Option.some.inj e).symm
  rcases h1 with h | h | h
  · exact h
  · exact absurd (h2.mpr (Or.inl h)) hnot
  · exact absurd (h2.mpr (Or.inr h)) hnot

theorem consistent_step (p q : Poller) (ch : Nat) (I : Int) (mv : Option Nat)
    (hp : Consistent p)
    (hI : I = kNew ∨ I = kAdded ∨ I = kDeleted)
    (hchan : q.chan = Function.update p.chan ch { p.chan ch with index := I })
    (hmap : q.channels_ = Function.update p.channels_ (p.chan ch).fd mv)
    (hmv : mv = some ch ↔ (I = kAdded ∨ I = kDeleted))
    (hmv2 : ∀ c, mv = some c → c = ch)
    (hexcl : ∀ c, c ≠ ch → (p.chan c).fd = (p.chan ch).fd → (p.chan c).index = kNew)
    (hint1 : interest q.ctl (p.chan ch).fd = some ch ↔ I = kAdded)
    (hint2 : ∀ fd, fd ≠ (p.chan ch).fd → interest q.ctl fd = interest p.ctl fd)
    (hint3 : ∀ c, c ≠ ch → interest q.ctl (p.chan ch).fd = some c →
      interest p.ctl (p.chan ch).fd = some c) :
    Consistent q := by
  intro c
  by_cases hc : c = ch
  · subst hc
    have e : q.chan c = { p.chan c with index := I } := by
      rw [hchan]; simp
    rw [e]
    refine ⟨hI, ?_, ?_⟩
    · show q.channels_ (p.chan c).fd = some c ↔ _
      rw [hmap]
      simp only [Function.update_same]
      exact hmv
    · exact hint1
  · have e : q.chan c = p.chan c := by
      rw [hchan]; exact Function.update_noteq hc _ _
    rw [e]
    obtain ⟨h1, h2, h3⟩ := hp c
    have hk1 : (kNew : Int) ≠ kAdded := by decide
    have hk2 : (kNew : Int) ≠ kDeleted := by decide
    refine ⟨h1, ?_, ?_⟩
    · by_cases hfd : (p.chan c).fd = (p.chan ch).fd
      · have hn := hexcl c hc hfd
        rw [hmap, hfd]
        simp only [Function.update_same]
        constructor
        · intro hm
          exact absurd (hmv2 c hm) hc
        · intro hi
          rw [hn] at hi
          rcases hi with hi | hi
          · exact absurd hi hk1
          · exact absurd hi hk2
      · rw [hmap, Function.update_noteq hfd]
        exact h2
    · by_cases hfd : (p.chan c).fd = (p.chan ch).fd
      · have hn := hexcl c hc hfd
        rw [hfd]
        constructor
        · intro hi
          have := hint3 c hc hi
          rw [← hfd] at this
          exact h3.mp this
        · intro hi
          rw [hn] at hi
          exact absurd hi hk1
      · rw [hint2 _ hfd]
        exact h3

theorem index_eta (c : Channel) (I : Int) (h : c.index = I) : { c with index := I } = c := by
  cases c
  simp only at h
  subst h
  rfl

theorem consistent_new (t : Nat) (chan : Nat → Channel) (hnew : ∀ c, (chan c).index = kNew) :
    Consistent (Poller.new t chan) := by
  intro c
  have hk1 : (kNew : Int) ≠ kAdded := by decide
  have hk2 : (kNew : Int) ≠ kDeleted := by decide
  refine ⟨Or.inl (hnew c), ?_, ?_⟩
  · simp [Poller.new, hnew c, hk1, hk2]
  · simp [Poller.new, hnew c, hk1, interest]

theorem consistent_updateChannel (kernel : Kernel) (p : Poller) (caller ch : Nat)
    (hp : Consistent p)
    (hret : (updateChannel kernel p caller ch).status = Status.returned) :
    Consistent (updateChannel kernel p caller ch).state := by
  have hNA : (kNew : Int) ≠ kAdded := by decide
  have hAN : (kAdded : Int) ≠ kNew := by decide
  have hND : (kNew : Int) ≠ kDeleted := by decide
  have hDN : (kDeleted : Int) ≠ kNew := by decide
  have hAD : (kAdded : Int) ≠ kDeleted := by decide
  have hDA : (kDeleted : Int) ≠ kAdded := by decide
  have hsome : (p.chan ch).index ≠ kNew → p.channels_ (p.chan ch).fd = some ch := by
    intro hn
    by_contra hc
    have : (updateChannel kernel p caller ch).status = Status.assertFailed := by
      by_cases h0 : p.channels_ (p.chan ch).fd = none
      · by_cases hd : (p.chan ch).index = kDeleted
        · simp [updateChannel, assertInLoopThread_returned, hd, h0, hNA, hAN, hND, hDN, hAD, hDA]
        · simp [updateChannel, assertInLoopThread_returned, hn, hd, h0]
      · by_cases hd : (p.chan ch).index = kDeleted
        · simp [updateChannel, assertInLoopThread_returned, hd, h0, hc, hNA, hAN, hND, hDN, hAD, hDA]
        · simp [updateChannel, assertInLoopThread_returned, hn, hd, h0, hc]
    rw [this] at hret
    exact absurd hret (by decide)
  have hme : p.channels_ (p.chan ch).fd = some ch →
      Function.update p.channels_ (p.chan ch).fd (some ch) = p.channels_ := by
    intro hm
    rw [← hm]; exact Function.update_eq_self _ _
  rcases (hp ch).1 with hi | hi | hi
  · have hnone : p.channels_ (p.chan ch).fd = none := by
      by_contra hc
      have : (updateChannel kernel p caller ch).status = Status.assertFailed := by
        simp [updateChannel, assertInLoopThread_returned, hi, hc]
      rw [this] at hret
      exact absurd hret (by decide)
    have hst : (updateChannel kernel p caller ch).state =
        { p with
          channels_ := Function.update p.channels_ (p.chan ch).fd (some ch),
          chan := Function.update p.chan ch { p.chan ch with index := kAdded },
          ctl := p.ctl ++ [{ op := CtlOp.ADD, fd := (p.chan ch).fd,
                             events := (p.chan ch).events, ptr := ch }] } := by
      simp [updateChannel, assertInLoopThread_returned, hi, hnone, update_state, set_index]
    rw [hst]
    refine consistent_step p _ ch kAdded (some ch) hp (Or.inr (Or.inl rfl)) rfl rfl
      ⟨fun _ => Or.inl rfl, fun _ => rfl⟩ (fun c h => (Option.some.inj h).symm)
      (others_new p hp ch (Or.inl hnone)) ?_ ?_ ?_
    · simp [interest_snoc]
    · intro fd hfd
      simp [interest_snoc, Function.update_noteq hfd]
    · intro c hc h
      simp [interest_snoc] at h
      exact absurd h.symm hc
  · have hm := hsome (by rw [hi]; exact hAN)
    by_cases he : (p.chan ch).events = 0
    · have hst : (updateChannel kernel p caller ch).state =
          { p with
            channels_ := Function.update p.channels_ (p.chan ch).fd (some ch),
            chan := Function.update p.chan ch { p.chan ch with index := kDeleted },
            ctl := p.ctl ++ [{ op := CtlOp.DEL, fd := (p.chan ch).fd,
                               events := (p.chan ch).events, ptr := ch }] } := by
        have hus : (update kernel p CtlOp.DEL ch).status = Status.returned := by
          simp [update_status]
        rw [hme hm]
        simp [updateChannel, assertInLoopThread_returned, hi, hm, he, Channel.isNoneEvent, hus,
          update_state, set_index, hNA, hAN, hND, hDN, hAD, hDA]
      rw [hst]
      refine consistent_step p _ ch kDeleted (some ch) hp (Or.inr (Or.inr rfl)) rfl rfl
        ⟨fun _ => Or.inr rfl, fun _ => rfl⟩ (fun c h => (Option.some.inj h).symm)
        (others_new p hp ch (Or.inr hm)) ?_ ?_ ?_
      · simp [interest_snoc, hNA, hAN, hND, hDN, hAD, hDA]
      · intro fd hfd
        simp [interest_snoc, Function.update_noteq hfd]
      · intro c hc h
        simp [interest_snoc] at h
    · have hst : (updateChannel kernel p caller ch).state =
          { p with
            channels_ := Function.update p.channels_ (p.chan ch).fd (some ch),
            chan := Function.update p.chan ch { p.chan ch with index := kAdded },
            ctl := p.ctl ++ [{ op := CtlOp.MOD, fd := (p.chan ch).fd,
                               events := (p.chan ch).events, ptr := ch }] } := by
        have hce : Function.update p.chan ch { p.chan ch with index := kAdded } = p.chan := by
          rw [index_eta _ _ hi]; exact Function.update_eq_self _ _
        rw [hme hm, hce]
        simp [updateChannel, assertInLoopThread_returned, hi, hm, he, Channel.isNoneEvent,
          update_state, hNA, hAN, hND, hDN, hAD, hDA]
      rw [hst]
      refine consistent_step p _ ch kAdded (some ch) hp (Or.inr (Or.inl rfl)) rfl rfl
        ⟨fun _ => Or.inl rfl, fun _ => rfl⟩ (fun c h => (Option.some.inj h).symm)
        (others_new p hp ch (Or.inr hm)) ?_ ?_ ?_
      · simp [interest_snoc]
      · intro fd hfd
        simp [interest_snoc, Function.update_noteq hfd]
      · intro c hc h
        simp [interest_snoc] at h
        exact absurd h.symm hc
  · have hm := hsome (by rw [hi]; exact hDN)
    have hst : (updateChannel kernel p caller ch).state =
        { p with
          channels_ := Function.update p.channels_ (p.chan ch).fd (some ch),
          chan := Function.update p.chan ch { p.chan ch with index := kAdded },
          ctl := p.ctl ++ [{ op := CtlOp.ADD, fd := (p.chan ch).fd,
                             events := (p.chan ch).events, ptr := ch }] } := by
      rw [hme hm]
      simp [updateChannel, assertInLoopThread_returned, hi, hm, update_state, set_index, hNA, hAN, hND, hDN, hAD, hDA]
    rw [hst]
    refine consistent_step p _ ch kAdded (some ch) hp (Or.inr (Or.inl rfl)) rfl rfl
      ⟨fun _ => Or.inl rfl, fun _ => rfl⟩ (fun c h => (Option.some.inj h).symm)
      (others_new p hp ch (Or.inr hm)) ?_ ?_ ?_
    · simp [interest_snoc]
    · intro fd hfd
      simp [interest_snoc, Function.update_noteq hfd]
    · intro c hc h
      simp [interest_snoc] at h
      exact absurd h.symm hc

theorem consistent_removeChannel (kernel : Kernel) (p : Poller) (caller ch : Nat)
    (hp : Consistent p)
    (hret : (removeChannel kernel p caller ch).status = Status.returned) :
    Consistent (removeChannel kernel p caller ch).state := by
  have hNA : (kNew : Int) ≠ kAdded := by decide
  have hAN : (kAdded : Int) ≠ kNew := by decide
  have hND : (kNew : Int) ≠ kDeleted := by decide
  have hDN : (kDeleted : Int) ≠ kNew := by decide
  have hAD : (kAdded : Int) ≠ kDeleted := by decide
  have hDA : (kDeleted : Int) ≠ kAdded := by decide
  have hm : p.channels_ (p.chan ch).fd = some ch := by
    by_contra hc
    have : (removeChannel kernel p caller ch).status = Status.assertFailed := by
      by_cases h0 : p.channels_ (p.chan ch).fd = none
      · simp [removeChannel, assertInLoopThread_returned, h0]
      · simp [removeChannel, assertInLoopThread_returned, h0, hc]
    rw [this] at hret
    exact absurd hret (by decide)
  have he : (p.chan ch).events = 0 := by
    by_contra hc
    have : (removeChannel kernel p caller ch).status = Status.assertFailed := by
      simp [removeChannel, assertInLoopThread_returned, hm, hc, Channel.isNoneEvent]
    rw [this] at hret
    exact absurd hret (by decide)
  rcases (hp ch).1 with hi | hi | hi
  · have : (removeChannel kernel p caller ch).status = Status.assertFailed := by
      simp [removeChannel, assertInLoopThread_returned, hm, he, hi, Channel.isNoneEvent, hNA, hAN, hND, hDN, hAD, hDA]
    rw [this] at hret
    exact absurd hret (by decide)
  · have hst : (removeChannel kernel p caller ch).state =
        { p with
          channels_ := Function.update p.channels_ (p.chan ch).fd none,
          chan := Function.update p.chan ch { p.chan ch with index := kNew },
          ctl := p.ctl ++ [{ op := CtlOp.DEL, fd := (p.chan ch).fd,
                             events := (p.chan ch).events, ptr := ch }] } := by
      have hus : (update kernel
          { p with channels_ := Function.update p.channels_ (p.chan ch).fd none }
          CtlOp.DEL ch).status = Status.returned := by
        simp [update_status]
      simp [removeChannel, assertInLoopThread_returned, hm, he, hi, Channel.isNoneEvent, hus,
        update_state, set_index, hNA, hAN, hND, hDN, hAD, hDA]
    rw [hst]
    refine consistent_step p _ ch kNew none hp (Or.inl rfl) rfl rfl
      ⟨fun h => absurd h (by simp), fun h => by rcases h with h | h <;> simp [hNA, hAN, hND, hDN, hAD, hDA] at h⟩
      (fun c h => absurd h (by simp))
      (others_new p hp ch (Or.inr hm)) ?_ ?_ ?_
    · simp [interest_snoc, hNA, hAN, hND, hDN, hAD, hDA]
    · intro fd hfd
      simp [interest_snoc, Function.update_noteq hfd]
    · intro c hc h
      simp [interest_snoc] at h
  · have hst : (removeChannel kernel p caller ch).state =
        { p with
          channels_ := Function.update p.channels_ (p.chan ch).fd none,
          chan := Function.update p.chan ch { p.chan ch with index := kNew } } := by
      simp [removeChannel, assertInLoopThread_returned, hm, he, hi, Channel.isNoneEvent,
        set_index, hNA, hAN, hND, hDN, hAD, hDA]
    rw [hst]
    have hreg : ¬ (interest p.ctl (p.chan ch).fd = some ch) := by
      intro h
      have := (hp ch).2.2.mp h
      rw [hi] at this
      exact hDA this
    refine consistent_step p _ ch kNew none hp (Or.inl rfl) rfl rfl
      ⟨fun h => absurd h (by simp), fun h => by rcases h with h | h <;> simp [hNA, hAN, hND, hDN, hAD, hDA] at h⟩
      (fun c h => absurd h (by simp))
      (others_new p hp ch (Or.inr hm)) ?_ ?_ ?_
    · exact ⟨fun h => absurd h hreg, fun h => absurd h hNA⟩
    · intro fd _
      rfl
    · intro c _ h
      exact h

theorem consistent_setEvents (p : Poller) (ch events : Nat) (hp : Consistent p) :
    Consistent { p with
      chan := Function.update p.chan ch { p.chan ch with events := events } } := by
  intro c
  by_cases hc : c = ch
  · subst hc
    simpa using hp c
  · simpa [Function.update_noteq hc] using hp c

theorem consistent_runOps (kernel : Kernel) (caller : Nat) (ops : List PollerOp) :
    ∀ p : Poller, Consistent p → (runOps kernel caller p ops).status = Status.returned →
      Consistent (runOps kernel caller p ops).state := by
  induction ops with
  | nil =>
    intro p hp _
    exact hp
  | cons op ops ih =>
    intro p hp hret
    unfold runOps at hret ⊢
    cases hs : (applyOp kernel p caller op).status with
    | returned =>
      rw [hs] at hret
      simp only at hret ⊢
      refine ih _ ?_ hret
      cases op with
      | update ch => exact consistent_updateChannel kernel p caller ch hp hs
      | remove ch => exact consistent_removeChannel kernel p caller ch hp hs
      | setEvents ch events => exact consistent_setEvents p ch events hp
    | fatal =>
      rw [hs] at hret
      simp only at hret
      rw [hs] at hret
      exact absurd hret (by decide)
    | assertFailed =>
      rw [hs] at hret
      simp only at hret
      rw [hs] at hret
      exact absurd hret (by decide)

/-- C18: starting from an empty poller over channels that are all NEW, after
every sequence of `updateChannel` / `removeChannel` calls (and interest changes
in between) in which every call returned, each channel is in the fd map if and
only if its index is ADDED or DELETED, is registered with the kernel if and
only if its index is ADDED, is in neither when its index is NEW, and
`hasChannel` is true exactly for the channels whose index is ADDED or
DELETED. -/
theorem poller_invariant (kernel : Kernel) (t caller : Nat) (chan : Nat → Channel)
    (hnew : ∀ c, (chan c).index = kNew) (ops : List PollerOp) (q : Poller)
    (hq : q = (runOps kernel caller (Poller.new t chan) ops).state)
    (hret : (runOps kernel caller (Poller.new t chan) ops).status = Status.returned)
    (c : Nat) :
    (q.channels_ (q.chan c).fd = some c ↔
      ((q.chan c).index = kAdded ∨ (q.chan c).index = kDeleted)) ∧
    (interest q.ctl (q.chan c).fd = some c ↔ (q.chan c).index = kAdded) ∧
    ((q.chan c).index = kNew →
      q.channels_ (q.chan c).fd ≠ some c ∧ interest q.ctl (q.chan c).fd ≠ some c) ∧
    (hasChannel q caller c = some true ↔
      ((q.chan c).index = kAdded ∨ (q.chan c).index = kDeleted)) ∧
    ((q.chan c).index = kNew ∨ (q.chan c).index = kAdded ∨ (q.chan c).index = kDeleted) := by
  have hNA : (kNew : Int) ≠ kAdded := by decide
  have hND : (kNew : Int) ≠ kDeleted := by decide
  have hcons : Consistent q := by
    rw [hq]
    exact consistent_runOps kernel caller ops _ (consistent_new t chan hnew) hret
  obtain ⟨h1, h2, h3⟩ := hcons c
  refine ⟨h2, h3, ?_, ?_, h1⟩
  · intro hi
    constructor
    · intro h
      rcases h2.mp h with h | h
      · rw [hi] at h; exact hNA h
      · rw [hi] at h; exact hND h
    · intro h
      have := h3.mp h
      rw [hi] at this
      exact hNA this
  · rw [← h2]
    simp [hasChannel, assertInLoopThread_returned]

/-- Witness for C18: after channel 0 (fd 5) is added, disarmed and updated again
it is DELETED, still in the map and reported by `hasChannel`, and not registered
with the kernel. -/
theorem poller_invariant_witness :
    (disarmedPoller.chan 0).index = kDeleted ∧
    (hasChannel disarmedPoller 1 0 = some true ↔
      ((disarmedPoller.chan 0).index = kAdded ∨ (disarmedPoller.chan 0).index = kDeleted)) ∧
    (interest disarmedPoller.ctl (disarmedPoller.chan 0).fd = some 0 ↔
      (disarmedPoller.chan 0).index = kAdded) :=
  ⟨by decide,
   (poller_invariant okKernel 1 1 exampleChannels (fun _ => rfl)
      [PollerOp.update 0, PollerOp.setEvents 0 0, PollerOp.update 0] disarmedPoller rfl
      (by decide) 0).2.2.2.1,
   (poller_invariant okKernel 1 1 exampleChannels (fun _ => rfl)
      [PollerOp.update 0, PollerOp.setEvents 0 0, PollerOp.update 0] disarmedPoller rfl
      (by decide) 0).2.1⟩

end Poller

namespace EventLoop

theorem evolves_refl (l : EventLoop) : Evolves l l [] [] [] := by
  refine ⟨by simp, by simp, by simp, rfl, rfl, le_refl _, fun h => Or.inl h, fun h => h⟩

theorem evolves_trans (a b c : EventLoop) (r1 h1 q1 r2 h2 q2 : List Nat)
    (hab : Evolves a b r1 h1 q1) (hbc : Evolves b c r2 h2 q2) :
    Evolves a c (r1 ++ r2) (h1 ++ h2) (q1 ++ q2) := by
  obtain ⟨a1, a2, a3, a4, a5, a6, a7, a8⟩ := hab
  obtain ⟨b1, b2, b3, b4, b5, b6, b7, b8⟩ := hbc
  refine ⟨by rw [b1, a1, List.append_assoc], by rw [b2, a2, List.append_assoc],
    by rw [b3, a3, List.append_assoc], by rw [b4, a4], by rw [b5, a5], le_trans a6 b6, ?_,
    fun h => b8 (a8 h)⟩
  intro hc
  rcases b7 hc with h | h
  · rcases a7 h with h2 | h2
    · exact Or.inl h2
    · exact Or.inr (lt_of_lt_of_le h2 b6)
  · exact Or.inr (lt_of_le_of_lt a6 h)

theorem queuedBy_cons (a : Action) (rest : List Action) :
    queuedBy (a :: rest) = queuedBy [a] ++ queuedBy rest := by
  cases a <;> simp [queuedBy]

theorem perform_evolves (l : EventLoop) (a : Action) :
    Evolves l (perform l a) [] [] (queuedBy [a]) := by
  cases a with
  | queueInLoop cb =>
    unfold perform queueInLoop wakeup
    simp only
    split <;>
      exact ⟨by simp, by simp, by simp [queuedBy], rfl, rfl, le_refl _, fun h => Or.inl h,
        fun h => h⟩
  | quit =>
    unfold perform quit wakeup
    simp only
    split <;>
      exact ⟨by simp, by simp, by simp [queuedBy], rfl, rfl, Nat.le_succ _,
        fun _ => Or.inr (Nat.lt_succ_self _), fun _ => rfl⟩
  | remoteQueueInLoop cb =>
    unfold perform queueInLoop wakeup
    simp only
    split <;>
      exact ⟨by simp, by simp, by simp [queuedBy], rfl, rfl, le_refl _, fun h => Or.inl h,
        fun h => h⟩

theorem performs_evolves (actions : List Action) :
    ∀ l : EventLoop, Evolves l (actions.foldl perform l) [] [] (queuedBy actions) := by
  induction actions with
  | nil => intro l; exact evolves_refl l
  | cons a rest ih =>
    intro l
    have h := evolves_trans _ _ _ _ _ _ _ _ _ (perform_evolves l a) (ih (perform l a))
    rw [queuedBy_cons]
    simpa using h

theorem runFunctor_evolves (env : LoopEnv) (l : EventLoop) (cb : Nat) :
    Evolves l (runFunctor env l cb) [cb] [] (queuedBy (env.functor cb)) := by
  have h0 : Evolves l { l with ran := l.ran ++ [cb] } [cb] [] [] :=
    ⟨rfl, by simp, by simp, rfl, rfl, le_refl _, fun h => Or.inl h, fun h => h⟩
  have h := evolves_trans _ _ _ _ _ _ _ _ _ h0
    (performs_evolves (env.functor cb) { l with ran := l.ran ++ [cb] })
  simpa [runFunctor] using h

theorem runFunctors_evolves (env : LoopEnv) (cbs : List Nat) :
    ∀ l : EventLoop,
      Evolves l (cbs.foldl (runFunctor env) l) cbs [] (queuedByFunctors env cbs) := by
  induction cbs with
  | nil => intro l; exact evolves_refl l
  | cons cb rest ih =>
    intro l
    have h := evolves_trans _ _ _ _ _ _ _ _ _ (runFunctor_evolves env l cb)
      (ih (runFunctor env l cb))
    simpa [queuedByFunctors] using h

theorem handleChannel_evolves (env : LoopEnv) (l : EventLoop) (channel : Nat) :
    Evolves l (handleChannel env l channel) [] [channel]
      (queuedBy (env.handleEvent l.iteration_ channel)) := by
  have h0 : Evolves l
      { l with currentActiveChannel_ := some channel, handled := l.handled ++ [channel] }
      [] [channel] [] :=
    ⟨by simp, rfl, by simp, rfl, rfl, le_refl _, fun h => Or.inl h, fun h => h⟩
  have h := evolves_trans _ _ _ _ _ _ _ _ _ h0
    (performs_evolves (env.handleEvent l.iteration_ channel)
      { l with currentActiveChannel_ := some channel, handled := l.handled ++ [channel] })
  simpa [handleChannel] using h

theorem handleChannels_evolves (env : LoopEnv) (channels : List Nat) :
    ∀ l : EventLoop,
      Evolves l (channels.foldl (handleChannel env) l) [] channels
        (queuedByHandlers env l.iteration_ channels) := by
  induction channels with
  | nil => intro l; exact evolves_refl l
  | cons channel rest ih =>
    intro l
    have h1 := handleChannel_evolves env l channel
    have h2 := ih (handleChannel env l channel)
    rw [h1.2.2.2.1] at h2
    have h := evolves_trans _ _ _ _ _ _ _ _ _ h1 h2
    simpa [queuedByHandlers] using h

/-- C14: `queueInLoop` appends the task at the tail of the pending queue (the
queue grows by exactly one and the earlier tasks keep their positions), and it
writes to the wake fd, once, if and only if the caller is not on the loop's
thread or the loop is inside the pending-task drain; nothing else changes. -/
theorem queueInLoop_appends_and_wakes (l : EventLoop) (caller cb : Nat) :
    (queueInLoop l caller cb).pendingFunctors_ = l.pendingFunctors_ ++ [cb] ∧
    (queueInLoop l caller cb).pendingFunctors_.length = l.pendingFunctors_.length + 1 ∧
    (∀ i, i < l.pendingFunctors_.length →
      (queueInLoop l caller cb).pendingFunctors_[i]? = l.pendingFunctors_[i]?) ∧
    (queueInLoop l caller cb).wakeups =
      (if caller ≠ l.threadId_ ∨ l.callingPendingFunctors_ = true then l.wakeups + 1
       else l.wakeups) ∧
    queueInLoop l caller cb =
      { l with
        pendingFunctors_ := (queueInLoop l caller cb).pendingFunctors_,
        wakeups := (queueInLoop l caller cb).wakeups } := by
  have hp : (queueInLoop l caller cb).pendingFunctors_ = l.pendingFunctors_ ++ [cb] := by
    unfold queueInLoop wakeup
    simp only
    split <;> rfl
  refine ⟨hp, by rw [hp]; simp, ?_, ?_, ?_⟩
  · intro i hi
    rw [hp, List.getElem?_append_left hi]
  · unfold queueInLoop wakeup isInLoopThread
    by_cases h1 : l.threadId_ = caller
    · by_cases h2 : l.callingPendingFunctors_ = true
      · simp [h1, h2]
      · simp [h1, h2]
    · have h3 : caller ≠ l.threadId_ := fun h => h1 h.symm
      simp [h1, h3]
  · unfold queueInLoop wakeup
    simp only
    split <;> rfl

theorem doPendingFunctors_traces (env : LoopEnv) (l : EventLoop) :
    (doPendingFunctors env l).ran = l.ran ++ l.pendingFunctors_ ∧
    (doPendingFunctors env l).pendingFunctors_ = queuedByFunctors env l.pendingFunctors_ ∧
    (doPendingFunctors env l).callingPendingFunctors_ = false ∧
    (doPendingFunctors env l).handled = l.handled := by
  have h := runFunctors_evolves env l.pendingFunctors_
    { l with callingPendingFunctors_ := true, pendingFunctors_ := [] }
  obtain ⟨h1, h2, h3, _⟩ := h
  refine ⟨?_, ?_, rfl, ?_⟩
  · simpa [doPendingFunctors] using h1
  · simpa [doPendingFunctors] using h3
  · simpa [doPendingFunctors] using h2

theorem queuedLocallyBy_sublist (actions : List Action) :
    List.Sublist (queuedLocallyBy actions) (queuedBy actions) := by
  induction actions with
  | nil => simp [queuedBy, queuedLocallyBy]
  | cons a rest ih =>
    cases a with
    | queueInLoop cb => exact List.cons_sublist_cons.mpr ih
    | quit => exact ih
    | remoteQueueInLoop cb => exact List.sublist_cons_of_sublist _ ih

theorem queuedLocallyByFunctors_sublist (env : LoopEnv) (cbs : List Nat) :
    List.Sublist (queuedLocallyByFunctors env cbs) (queuedByFunctors env cbs) := by
  induction cbs with
  | nil => simp [queuedByFunctors, queuedLocallyByFunctors]
  | cons cb rest ih =>
    exact List.Sublist.append (queuedLocallyBy_sublist (env.functor cb)) ih

theorem queuedBy_eq_locally (actions : List Action)
    (h : ∀ x, Action.remoteQueueInLoop x ∉ actions) :
    queuedBy actions = queuedLocallyBy actions := by
  induction actions with
  | nil => rfl
  | cons a rest ih =>
    have hr : ∀ x, Action.remoteQueueInLoop x ∉ rest :=
      fun x hx => h x (List.mem_cons_of_mem _ hx)
    cases a with
    | queueInLoop cb => simp [queuedBy, queuedLocallyBy, ih hr]
    | quit => simp [queuedBy, queuedLocallyBy, ih hr]
    | remoteQueueInLoop cb => exact absurd (List.mem_cons_self _ _) (h cb)

theorem queuedByFunctors_eq_locally (env : LoopEnv) (cbs : List Nat)
    (h : noRemoteQueue env cbs) :
    queuedByFunctors env cbs = queuedLocallyByFunctors env cbs := by
  induction cbs with
  | nil => rfl
  | cons cb rest ih =>
    have h1 := queuedBy_eq_locally (env.functor cb) (h cb (List.mem_cons_self _ _))
    have h2 := ih (fun c hc => h c (List.mem_cons_of_mem _ hc))
    simp [queuedByFunctors, queuedLocallyByFunctors, h1, h2]

/-- C15 (amended): one call of `doPendingFunctors` runs every functor that was
in the pending queue when it began, each exactly once and in queue order, and
runs nothing else.  The functors queued while the drain runs, by the drained
functors or by other threads, are not run by it and are exactly the contents of
the pending queue when it finishes, in the order they were queued; those queued
by the drained functors keep their order within it, and they are the whole
queue when no other thread queues anything meanwhile. -/
theorem doPendingFunctors_fifo (env : LoopEnv) (l : EventLoop) :
    (doPendingFunctors env l).ran = l.ran ++ l.pendingFunctors_ ∧
    (doPendingFunctors env l).pendingFunctors_ = queuedByFunctors env l.pendingFunctors_ ∧
    List.Sublist (queuedLocallyByFunctors env l.pendingFunctors_)
      (doPendingFunctors env l).pendingFunctors_ ∧
    (noRemoteQueue env l.pendingFunctors_ →
      (doPendingFunctors env l).pendingFunctors_ =
        queuedLocallyByFunctors env l.pendingFunctors_) ∧
    (doPendingFunctors env l).callingPendingFunctors_ = false ∧
    (doPendingFunctors env l).handled = l.handled := by
  obtain ⟨h1, h2, h3, h4⟩ := doPendingFunctors_traces env l
  refine ⟨h1, h2, ?_, ?_, h3, h4⟩
  · rw [h2]
    exact queuedLocallyByFunctors_sublist env l.pendingFunctors_
  · intro hn
    rw [h2]
    exact queuedByFunctors_eq_locally env l.pendingFunctors_ hn

/-- Witness for C15 (amended): functor 7 queues functor 8 and no other thread
interferes; the drain runs 7 and leaves 8 pending. -/
theorem doPendingFunctors_fifo_witness :
    (doPendingFunctors chainEnv drainingLoop).ran = [7] ∧
    (doPendingFunctors chainEnv drainingLoop).pendingFunctors_ =
      queuedLocallyByFunctors chainEnv drainingLoop.pendingFunctors_ ∧
    queuedLocallyByFunctors chainEnv drainingLoop.pendingFunctors_ = [8] :=
  ⟨by decide,
   (doPendingFunctors_fifo chainEnv drainingLoop).2.2.2.1 (by
     intro cb hcb x hx
     have hcb7 : cb = 7 := by simpa [drainingLoop, exampleLoop, EventLoop.new] using hcb
     subst hcb7
     simp [chainEnv] at hx),
   by decide⟩

/-- C15 (counterexample): functor 7 queues nothing, but another thread calls
`queueInLoop(99)` while it runs; when the drain finishes the pending queue
holds 99, which is not among the functors queued by the drained functors. -/
theorem drain_queue_holds_remote_task :
    drainingLoop.pendingFunctors_ = [7] ∧
    (doPendingFunctors raceEnv drainingLoop).ran = [7] ∧
    queuedLocallyByFunctors raceEnv drainingLoop.pendingFunctors_ = [] ∧
    (doPendingFunctors raceEnv drainingLoop).pendingFunctors_ = [99] := by
  refine ⟨by decide, by decide, by decide, by decide⟩

theorem doPendingFunctors_quit (env : LoopEnv) (l : EventLoop) :
    (doPendingFunctors env l).iteration_ = l.iteration_ ∧
    (doPendingFunctors env l).looping_ = l.looping_ ∧
    l.quitCalls ≤ (doPendingFunctors env l).quitCalls ∧
    ((doPendingFunctors env l).quit_ = true →
      l.quit_ = true ∨ l.quitCalls < (doPendingFunctors env l).quitCalls) ∧
    (l.quit_ = true → (doPendingFunctors env l).quit_ = true) := by
  have h := runFunctors_evolves env l.pendingFunctors_
    { l with callingPendingFunctors_ := true, pendingFunctors_ := [] }
  obtain ⟨_, _, _, h4, h5, h6, h7, h8⟩ := h
  exact ⟨h4, h5, h6, h7, h8⟩

theorem queuedBy_remote (cbs : List Nat) :
    queuedBy (cbs.map Action.remoteQueueInLoop) = cbs := by
  induction cbs with
  | nil => rfl
  | cons cb rest ih => simp [queuedBy, ih]

theorem duringPoll_evolves (env : LoopEnv) (n : Nat) (l : EventLoop) :
    Evolves l (duringPoll env n l) [] [] (env.remoteQueue n) ∧
    (env.remoteQuit n = true → (duringPoll env n l).quit_ = true) ∧
    (duringPoll env n l).activeChannels_ = l.activeChannels_ := by
  have h1 := performs_evolves ((env.remoteQueue n).map Action.remoteQueueInLoop) l
  rw [queuedBy_remote] at h1
  have hact : ∀ (actions : List Action) (l0 : EventLoop),
      (actions.foldl perform l0).activeChannels_ = l0.activeChannels_ := by
    intro actions
    induction actions with
    | nil => intro l0; rfl
    | cons a rest ih =>
      intro l0
      show (rest.foldl perform (perform l0 a)).activeChannels_ = _
      rw [ih]
      cases a <;> (simp only [perform, queueInLoop, quit, wakeup]; split <;> rfl)
  unfold duringPoll
  simp only
  by_cases hr : env.remoteQuit n = true
  · rw [if_pos hr]
    have h2 : ∀ l1 : EventLoop, Evolves l1 (quit l1 (l1.threadId_ + 1)) [] [] [] ∧
        (quit l1 (l1.threadId_ + 1)).quit_ = true ∧
        (quit l1 (l1.threadId_ + 1)).activeChannels_ = l1.activeChannels_ := by
      intro l1
      unfold quit wakeup
      simp only
      split <;>
        exact ⟨⟨by simp, by simp, by simp, rfl, rfl, Nat.le_succ _,
          fun _ => Or.inr (Nat.lt_succ_self _), fun _ => rfl⟩, rfl, rfl⟩
    obtain ⟨q1, q2, q3⟩ := h2 (((env.remoteQueue n).map Action.remoteQueueInLoop).foldl perform l)
    have h := evolves_trans _ _ _ _ _ _ _ _ _ h1 q1
    refine ⟨by simpa using h, fun _ => q2, ?_⟩
    rw [q3, hact]
  · rw [if_neg hr]
    exact ⟨h1, fun h => absurd h hr, hact _ _⟩

theorem dispatchAndDrain_spec (env : LoopEnv) (l : EventLoop) :
    (dispatchAndDrain env l).iteration_ = l.iteration_ + 1 ∧
    (dispatchAndDrain env l).handled = l.handled ++ l.activeChannels_ ∧
    (dispatchAndDrain env l).ran =
      l.ran ++ (l.pendingFunctors_ ++ queuedByHandlers env (l.iteration_ + 1) l.activeChannels_) ∧
    (dispatchAndDrain env l).looping_ = l.looping_ ∧
    l.quitCalls ≤ (dispatchAndDrain env l).quitCalls ∧
    ((dispatchAndDrain env l).quit_ = true →
      l.quit_ = true ∨ l.quitCalls < (dispatchAndDrain env l).quitCalls) ∧
    (l.quit_ = true → (dispatchAndDrain env l).quit_ = true) := by
  have hC := handleChannels_evolves env l.activeChannels_
    { l with iteration_ := l.iteration_ + 1, eventHandling_ := true }
  obtain ⟨c1, c2, c3, c4, c5, c6, c7, c8⟩ := hC
  simp only at c1 c2 c3 c4 c5 c6 c7 c8
  have hD := doPendingFunctors_traces env
    { (List.foldl (handleChannel env)
        { l with iteration_ := l.iteration_ + 1, eventHandling_ := true } l.activeChannels_) with
      currentActiveChannel_ := none, eventHandling_ := false }
  have hE := doPendingFunctors_quit env
    { (List.foldl (handleChannel env)
        { l with iteration_ := l.iteration_ + 1, eventHandling_ := true } l.activeChannels_) with
      currentActiveChannel_ := none, eventHandling_ := false }
  obtain ⟨d1, _, _, d4⟩ := hD
  obtain ⟨e1, e2, e3, e4, e5⟩ := hE
  simp only at d1 d4 e1 e2 e3 e4 e5
  have hst : dispatchAndDrain env l =
      doPendingFunctors env
        { (List.foldl (handleChannel env)
            { l with iteration_ := l.iteration_ + 1, eventHandling_ := true }
            l.activeChannels_) with
          currentActiveChannel_ := none, eventHandling_ := false } := rfl
  rw [hst]
  refine ⟨?_, ?_, ?_, ?_, le_trans c6 e3, ?_, fun hq => e5 (c8 hq)⟩
  · rw [e1, c4]
  · rw [d4, c2]
  · rw [d1, c1, c3]
    simp
  · rw [e2, c5]
  · intro hq
    rcases e4 hq with hq1 | hq1
    · rcases c7 hq1 with hq2 | hq2
      · exact Or.inl hq2
      · exact Or.inr (lt_of_lt_of_le hq2 e3)
    · exact Or.inr (lt_of_le_of_lt c6 hq1)

theorem iteration_spec (env : LoopEnv) (l : EventLoop)
    (h : (iteration env l).status = Status.returned) :
    (iteration env l).state.iteration_ = l.iteration_ + 1 ∧
    (iteration env l).state.handled =
      l.handled ++ (Poller.poll l.poller_ (env.wait l.iteration_) []).state.2 ∧
    (iteration env l).state.ran =
      l.ran ++ (l.pendingFunctors_ ++ env.remoteQueue l.iteration_ ++
        queuedByHandlers env (l.iteration_ + 1)
          (Poller.poll l.poller_ (env.wait l.iteration_) []).state.2) ∧
    (iteration env l).state.looping_ = l.looping_ ∧
    l.quitCalls ≤ (iteration env l).state.quitCalls ∧
    ((iteration env l).state.quit_ = true →
      l.quit_ = true ∨ l.quitCalls < (iteration env l).state.quitCalls) ∧
    (l.quit_ = true → (iteration env l).state.quit_ = true) ∧
    (env.remoteQuit l.iteration_ = true → (iteration env l).state.quit_ = true) := by
  have ho : (Poller.poll l.poller_ (env.wait l.iteration_) []).status = Status.returned := by
    cases hs : (Poller.poll l.poller_ (env.wait l.iteration_) []).status with
    | returned => rfl
    | fatal =>
      unfold iteration at h
      simp [hs] at h
    | assertFailed =>
      unfold iteration at h
      simp [hs] at h
  have hst : (iteration env l).state =
      dispatchAndDrain env
        (duringPoll env l.iteration_
          { l with
            activeChannels_ := (Poller.poll l.poller_ (env.wait l.iteration_) []).state.2,
            poller_ := (Poller.poll l.poller_ (env.wait l.iteration_) []).state.1 }) := by
    unfold iteration
    simp only [ho]
  obtain ⟨hA, hB, hAct⟩ := duringPoll_evolves env l.iteration_
    { l with
      activeChannels_ := (Poller.poll l.poller_ (env.wait l.iteration_) []).state.2,
      poller_ := (Poller.poll l.poller_ (env.wait l.iteration_) []).state.1 }
  obtain ⟨a1, a2, a3, a4, a5, a6, a7, a8⟩ := hA
  simp only at a1 a2 a3 a4 a5 a6 a7 a8 hAct
  obtain ⟨d1, d2, d3, d4, d5, d6, d7⟩ := dispatchAndDrain_spec env
    (duringPoll env l.iteration_
      { l with
        activeChannels_ := (Poller.poll l.poller_ (env.wait l.iteration_) []).state.2,
        poller_ := (Poller.poll l.poller_ (env.wait l.iteration_) []).state.1 })
  rw [hst]
  refine ⟨?_, ?_, ?_, ?_, le_trans a6 d5, ?_, fun hq => d7 (a8 hq), fun hr => d7 (hB hr)⟩
  · rw [d1, a4]
  · rw [d2, a2, hAct]
    simp
  · rw [d3, a1, a3, a4, hAct]
    simp
  · rw [d4, a5]
  · intro hq
    rcases d6 hq with hq1 | hq1
    · rcases a7 hq1 with hq2 | hq2
      · exact Or.inl hq2
      · exact Or.inr (lt_of_lt_of_le hq2 d5)
    · exact Or.inr (lt_of_le_of_lt a6 hq1)

theorem loopWhile_quit (env : LoopEnv) (fuel : Nat) (l : EventLoop) (h : l.quit_ = true) :
    loopWhile env fuel l = { status := LoopStatus.exited, state := l } := by
  cases fuel <;> simp [loopWhile, h]

theorem quit_fields (l : EventLoop) (caller : Nat) :
    (quit l caller).quit_ = true ∧ (quit l caller).looping_ = l.looping_ ∧
    (quit l caller).iteration_ = l.iteration_ ∧ (quit l caller).threadId_ = l.threadId_ ∧
    (quit l caller).quitCalls = l.quitCalls + 1 := by
  unfold quit wakeup
  simp only
  split <;> exact ⟨rfl, rfl, rfl, rfl, rfl⟩

theorem afterIterations_succ (env : LoopEnv) (n : Nat) :
    ∀ l : EventLoop,
      afterIterations env (n + 1) l = (iteration env (afterIterations env n l)).state := by
  induction n with
  | zero => intro l; rfl
  | succ n ih =>
    intro l
    show afterIterations env (n + 1) (iteration env l).state = _
    rw [ih]
    rfl

theorem afterIterations_count (env : LoopEnv) (n : Nat) :
    ∀ l : EventLoop,
      (∀ j, j < n → (iteration env (afterIterations env j l)).status = Status.returned) →
      (afterIterations env n l).iteration_ = l.iteration_ + n := by
  induction n with
  | zero => intro l _; rfl
  | succ n ih =>
    intro l h
    have h0 : (iteration env l).status = Status.returned := h 0 (Nat.succ_pos n)
    have h1 := ih (iteration env l).state (fun j hj => h (j + 1) (Nat.succ_lt_succ hj))
    have h2 := (iteration_spec env l h0).1
    show (afterIterations env n (iteration env l).state).iteration_ = _
    omega

theorem loopWhile_exits (env : LoopEnv) (n : Nat) :
    ∀ (l : EventLoop) (extra : Nat),
      (∀ j, j < n → (afterIterations env j l).quit_ = false) →
      (∀ j, j < n → (iteration env (afterIterations env j l)).status = Status.returned) →
      (afterIterations env n l).quit_ = true →
      loopWhile env (n + extra) l =
        { status := LoopStatus.exited, state := afterIterations env n l } := by
  induction n with
  | zero =>
    intro l extra _ _ hq
    exact loopWhile_quit env _ l hq
  | succ n ih =>
    intro l extra hrun hret hq
    have h0 : l.quit_ = false := hrun 0 (Nat.succ_pos n)
    have h1 : (iteration env l).status = Status.returned := hret 0 (Nat.succ_pos n)
    have hfuel : n + 1 + extra = (n + extra) + 1 := by omega
    rw [hfuel]
    have hstep : loopWhile env ((n + extra) + 1) l =
        loopWhile env (n + extra) (iteration env l).state := by
      simp [loopWhile, h0, h1]
    rw [hstep]
    exact ih (iteration env l).state extra
      (fun j hj => hrun (j + 1) (Nat.succ_lt_succ hj))
      (fun j hj => hret (j + 1) (Nat.succ_lt_succ hj)) hq

theorem loop_of_loopWhile (env : LoopEnv) (fuel : Nat) (l : EventLoop) (caller : Nat)
    (s : EventLoop) (hl : l.looping_ = false)
    (h : loopWhile env fuel { l with looping_ := true, quit_ := false } =
      { status := LoopStatus.exited, state := s }) :
    loop env fuel l caller =
      { status := LoopStatus.exited, state := { s with looping_ := false } } := by
  unfold loop
  rw [assertInLoopThread_returned]
  simp only [hl, Bool.false_eq_true, if_false, h]

/-- C16: `quit()` sets the quit flag and writes to the wake fd if and only if
the caller is not on the owning thread.  For a run of `loop()` in which the
flag is first found set after the pass with index `k` through the loop body
(it was clear at the `k + 1` checks before), `loop()` returns, given at least
`k + 1` iterations to follow it: it returns exactly the state at the end of
that pass with `looping_` false, so that pass dispatched every active channel
and then drained the functors pending by then (those pending at its start,
those queued by other threads during its poll and those queued during the
dispatch), and no further poll was started (the iteration count is the entry
count plus `k + 1`).  A flag set during a pass,
by another thread during the poll or already set before, is still set at the
end of the pass. -/
theorem quit_ends_loop (env : LoopEnv) (l : EventLoop) (caller k fuel : Nat) :
    ((quit l caller).quit_ = true ∧
      (quit l caller).wakeups =
        (if caller ≠ l.threadId_ then l.wakeups + 1 else l.wakeups) ∧
      quit l caller =
        { l with quit_ := true, quitCalls := l.quitCalls + 1,
                 wakeups := (quit l caller).wakeups }) ∧
    (l.looping_ = false →
      (∀ j, j ≤ k →
        (afterIterations env j { l with looping_ := true, quit_ := false }).quit_ = false) →
      (∀ j, j ≤ k →
        (iteration env
          (afterIterations env j { l with looping_ := true, quit_ := false })).status
          = Status.returned) →
      (afterIterations env (k + 1) { l with looping_ := true, quit_ := false }).quit_ = true →
      k + 1 ≤ fuel →
      loop env fuel l caller =
        { status := LoopStatus.exited,
          state := { afterIterations env (k + 1) { l with looping_ := true, quit_ := false } with
                     looping_ := false } } ∧
      (loop env fuel l caller).state.looping_ = false ∧
      (loop env fuel l caller).state.iteration_ = l.iteration_ + (k + 1) ∧
      (loop env fuel l caller).state.handled =
        (afterIterations env k { l with looping_ := true, quit_ := false }).handled ++
          (Poller.poll (afterIterations env k { l with looping_ := true, quit_ := false }).poller_
            (env.wait (afterIterations env k
              { l with looping_ := true, quit_ := false }).iteration_) []).state.2 ∧
      (loop env fuel l caller).state.ran =
        (afterIterations env k { l with looping_ := true, quit_ := false }).ran ++
          ((afterIterations env k
              { l with looping_ := true, quit_ := false }).pendingFunctors_ ++
            env.remoteQueue (afterIterations env k
              { l with looping_ := true, quit_ := false }).iteration_ ++
            queuedByHandlers env
              ((afterIterations env k
                { l with looping_ := true, quit_ := false }).iteration_ + 1)
              (Poller.poll
                (afterIterations env k { l with looping_ := true, quit_ := false }).poller_
                (env.wait (afterIterations env k
                  { l with looping_ := true, quit_ := false }).iteration_) []).state.2)) ∧
    (env.remoteQuit l.iteration_ = true → (iteration env l).status = Status.returned →
      (iteration env l).state.quit_ = true) ∧
    (l.quit_ = true → (iteration env l).status = Status.returned →
      (iteration env l).state.quit_ = true) := by
  refine ⟨⟨(quit_fields l caller).1, ?_, ?_⟩, ?_, ?_, ?_⟩
  · unfold quit wakeup isInLoopThread
    by_cases h1 : l.threadId_ = caller
    · simp [h1]
    · have h3 : caller ≠ l.threadId_ := fun h => h1 h.symm
      simp [h1, h3]
  · unfold quit wakeup
    simp only
    split <;> rfl
  · intro hl hrun hret hset hfuel
    obtain ⟨extra, hextra⟩ := Nat.exists_eq_add_of_le hfuel
    have hw := loopWhile_exits env (k + 1) { l with looping_ := true, quit_ := false } extra
      (fun j hj => hrun j (Nat.lt_succ_iff.mp hj))
      (fun j hj => hret j (Nat.lt_succ_iff.mp hj)) hset
    rw [← hextra] at hw
    have hloop := loop_of_loopWhile env fuel l caller _ hl hw
    have hcount := afterIterations_count env (k + 1) { l with looping_ := true, quit_ := false }
      (fun j hj => hret j (Nat.lt_succ_iff.mp hj))
    have hlast := iteration_spec env
      (afterIterations env k { l with looping_ := true, quit_ := false }) (hret k (le_refl k))
    have hsucc := afterIterations_succ env k { l with looping_ := true, quit_ := false }
    rw [hloop]
    refine ⟨rfl, rfl, hcount, ?_, ?_⟩
    · show (afterIterations env (k + 1) { l with looping_ := true, quit_ := false }).handled = _
      rw [hsucc]
      exact hlast.2.1
    · show (afterIterations env (k + 1) { l with looping_ := true, quit_ := false }).ran = _
      rw [hsucc]
      exact hlast.2.2.1
  · intro hr hs
    exact (iteration_spec env l hs).2.2.2.2.2.2.2 hr
  · intro hq hs
    exact (iteration_spec env l hs).2.2.2.2.2.2.1 hq

/-- Witness for C16: thread 1 runs `loop()` on the example loop and another
thread calls `quit()` during the third poll; `loop()` returns after that pass,
having polled three times, with `looping_` false. -/
theorem quit_ends_loop_witness :
    loop quitEnv 10 exampleLoop 1 =
      { status := LoopStatus.exited,
        state := { afterIterations quitEnv (2 + 1)
                     { exampleLoop with looping_ := true, quit_ := false } with
                   looping_ := false } } ∧
    (loop quitEnv 10 exampleLoop 1).state.looping_ = false ∧
    (loop quitEnv 10 exampleLoop 1).state.iteration_ = exampleLoop.iteration_ + (2 + 1) :=
  ⟨((quit_ends_loop quitEnv exampleLoop 1 2 10).2.1 rfl (by decide) (by decide) (by decide)
      (by decide)).1,
   ((quit_ends_loop quitEnv exampleLoop 1 2 10).2.1 rfl (by decide) (by decide) (by decide)
      (by decide)).2.1,
   ((quit_ends_loop quitEnv exampleLoop 1 2 10).2.1 rfl (by decide) (by decide) (by decide)
      (by decide)).2.2.1⟩

end EventLoop

namespace RpcChannel

theorem wrap64_succ (a : Int) : wrap64 (wrap64 a + 1) = wrap64 (a + 1) := by
  unfold wrap64
  norm_num
  omega

theorem wrap64_ne_of_lt (a : Int) (d : Nat) (h1 : 1 ≤ d) (h2 : d < 2 ^ 64) :
    wrap64 (a + d) ≠ wrap64 a := by
  unfold wrap64
  norm_num at h2 ⊢
  omega

theorem handle_response_frame (st : RpcChannel) (m : RpcMessage) :
    (handle_response_msg st m).id_ = st.id_ ∧
    (handle_response_msg st m).conn_ = st.conn_ ∧
    ∀ k, (handle_response_msg st m).outstandings_ k ≠ none → st.outstandings_ k ≠ none := by
  cases hf : st.outstandings_ m.id with
  | none =>
    refine ⟨?_, ?_, ?_⟩ <;> simp [handle_response_msg, hf]
  | some out =>
    have hk : ∀ k, Function.update st.outstandings_ m.id none k ≠ none →
        st.outstandings_ k ≠ none := by
      intro k h
      by_cases e : k = m.id
      · subst e
        simp at h
      · rwa [Function.update_noteq e] at h
    have ho := handle_response_found st m out hf
    refine ⟨?_, ?_, ?_⟩
    · cases hr : out.response with
      | none => simp [handle_response_msg, hf, hr]
      | some slot =>
        by_cases hb : m.response = []
        · cases hd : out.done <;> simp [handle_response_msg, hf, hr, hd, hb]
        · cases hd : out.done <;> simp [handle_response_msg, hf, hr, hd, hb]
    · cases hr : out.response with
      | none => simp [handle_response_msg, hf, hr]
      | some slot =>
        by_cases hb : m.response = []
        · cases hd : out.done <;> simp [handle_response_msg, hf, hr, hd, hb]
        · cases hd : out.done <;> simp [handle_response_msg, hf, hr, hd, hb]
    · intro k h
      rw [ho] at h
      exact hk k h

theorem dispatchRequest_frame (st : RpcChannel) (m : RpcMessage) (e : ErrorCode)
    (st1 : RpcChannel) (h : dispatchRequest st m = some (e, st1)) :
    st1.id_ = st.id_ ∧ st1.outstandings_ = st.outstandings_ := by
  unfold dispatchRequest at h
  cases h1 : st.services_ with
  | none =>
    simp [h1] at h
    rw [← h.2]
    exact ⟨rfl, rfl⟩
  | some services =>
    cases h2 : services m.service with
    | none =>
      simp [h1, h2] at h
      rw [← h.2]
      exact ⟨rfl, rfl⟩
    | some osvc =>
      cases osvc with
      | none => simp [h1, h2] at h
      | some svc =>
        cases h3 : svc.FindMethodByName m.method with
        | none =>
          simp [h1, h2, h3] at h
          rw [← h.2]
          exact ⟨rfl, rfl⟩
        | some meth =>
          cases h4 : svc.ParseFromString meth m.request with
          | false =>
            simp [h1, h2, h3, h4] at h
            rw [← h.2]
            exact ⟨rfl, rfl⟩
          | true =>
            cases hc : svc.CallMethod meth m.request with
            | none =>
              simp [h1, h2, h3, h4, hc] at h
              rw [← h.2]
              exact ⟨rfl, rfl⟩
            | some r =>
              simp [h1, h2, h3, h4, hc] at h
              rw [← h.2]
              exact ⟨rfl, rfl⟩

theorem onRpcMessage_frame (st : RpcChannel) (m : RpcMessage) :
    (onRpcMessage st st.conn_ m).state.id_ = st.id_ ∧
    ∀ k, (onRpcMessage st st.conn_ m).state.outstandings_ k ≠ none →
      st.outstandings_ k ≠ none := by
  unfold onRpcMessage
  simp only [ne_eq, not_true_eq_false, if_false]
  split
  · exact ⟨(handle_response_frame st m).1, (handle_response_frame st m).2.2⟩
  · split
    · unfold handle_request_msg
      cases hd : dispatchRequest st m with
      | none => exact ⟨rfl, fun k h => h⟩
      | some r =>
        obtain ⟨e, st1⟩ := r
        have hf := dispatchRequest_frame st m e st1 hd
        simp only
        split
        · refine ⟨hf.1, ?_⟩
          intro k h
          have : st1.outstandings_ k ≠ none := h
          rwa [hf.2] at this
        · refine ⟨hf.1, ?_⟩
          intro k h
          have : st1.outstandings_ k ≠ none := h
          rwa [hf.2] at this
    · exact ⟨rfl, fun k h => h⟩

theorem applyOp_issued (id0 : Int) (n : Nat) (st : RpcChannel) (op : ChannelOp)
    (h : IdsIssued id0 n st) : IdsIssued id0 (n + callCount [op]) (applyOp st op) := by
  cases op with
  | call method request response done =>
    refine ⟨?_, ?_⟩
    · intro k hk
      by_cases e : k = wrap64 (st.id_ + 1)
      · exact ⟨n + 1, by omega, by simp [callCount], by
          rw [e, h.2]; push_cast; ring_nf⟩
      · have hk2 : st.outstandings_ k ≠ none := by
          simpa [applyOp, CallMethod, send, Function.update_noteq e] using hk
        obtain ⟨j, h1, h2, h3⟩ := h.1 k hk2
        exact ⟨j, h1, by simp [callCount]; omega, h3⟩
    · show wrap64 (wrap64 (st.id_ + 1) + 1) = _
      rw [h.2, wrap64_succ]
      simp only [callCount]
      push_cast
      ring_nf
  | receive message =>
    have hf := onRpcMessage_frame st message
    refine ⟨?_, ?_⟩
    · intro k hk
      exact h.1 k (hf.2 k hk)
    · show wrap64 ((onRpcMessage st st.conn_ message).state.id_ + 1) = _
      rw [hf.1]
      simpa [callCount] using h.2
  | complete response id =>
    exact ⟨fun k hk => h.1 k hk, by simpa [callCount] using h.2⟩
  | services table =>
    exact ⟨fun k hk => h.1 k hk, by simpa [callCount] using h.2⟩

theorem callCount_cons (op : ChannelOp) (ops : List ChannelOp) :
    callCount (op :: ops) = callCount [op] + callCount ops := by
  cases op <;> simp [callCount]
  omega

theorem runOps_issued (id0 : Int) (ops : List ChannelOp) :
    ∀ (n : Nat) (st : RpcChannel), IdsIssued id0 n st →
      IdsIssued id0 (n + callCount ops) (runOps st ops) := by
  induction ops with
  | nil =>
    intro n st h
    simpa [runOps, callCount] using h
  | cons op ops ih =>
    intro n st h
    have h1 := ih _ _ (applyOp_issued id0 n st op h)
    rw [callCount_cons, ← Nat.add_assoc]
    exact h1

/-- C13: on a channel reached from construction by any steps containing fewer
than 2^64 `CallMethod` calls, `CallMethod` hands the codec exactly one message,
of type REQUEST, with the newly allocated id, the method's service full name,
the method's name and the serialized request; the new id was not a key of the
outstanding table, it now maps to (response, done), and every other entry is
unchanged. -/
theorem CallMethod_postcondition (conn : Option Nat) (id0 : Int) (ops : List ChannelOp)
    (st : RpcChannel) (hst : st = runOps (RpcChannel.new conn id0) ops)
    (hn : callCount ops < 2 ^ 64)
    (method : MethodDescriptor) (request : Bytes) (response done : Option Nat) :
    (CallMethod st method request response done).effects =
      st.effects ++ [Effect.send st.conn_
        { RpcMessage.empty with
          type := MessageType.REQUEST, id := wrap64 (st.id_ + 1),
          service := method.serviceFullName, method := method.name, request := request }] ∧
    st.outstandings_ (wrap64 (st.id_ + 1)) = none ∧
    (CallMethod st method request response done).outstandings_ (wrap64 (st.id_ + 1)) =
      some { response := response, done := done } ∧
    (∀ k, k ≠ wrap64 (st.id_ + 1) →
      (CallMethod st method request response done).outstandings_ k = st.outstandings_ k) ∧
    (CallMethod st method request response done).id_ = wrap64 (st.id_ + 1) := by
  refine ⟨rfl, ?_, ?_, ?_, rfl⟩
  · have hnew : IdsIssued id0 0 (RpcChannel.new conn id0) :=
      ⟨fun k hk => absurd rfl hk, by simp [RpcChannel.new]⟩
    have h := runOps_issued id0 ops 0 _ hnew
    rw [← hst, Nat.zero_add] at h
    by_contra hc
    obtain ⟨j, h1, h2, h3⟩ := h.1 _ hc
    rw [h.2] at h3
    have hd := wrap64_ne_of_lt (id0 + j) (callCount ops + 1 - j) (by omega) (by omega)
    apply hd
    rw [← h3]
    congr 1
    have : ((callCount ops + 1 - j : Nat) : Int) = (callCount ops : Int) + 1 - (j : Int) := by
      omega
    rw [this]
    ring
  · simp [CallMethod, send]
  · intro k hk
    simp [CallMethod, send, Function.update_noteq hk]

/-- Witness for C13: a second `CallMethod` on `clientChannel`, which was reached
by one call from a fresh channel, is registered under the unused id 2. -/
theorem CallMethod_postcondition_witness :
    clientChannel.outstandings_ (wrap64 (clientChannel.id_ + 1)) = none ∧
    (CallMethod clientChannel exampleMethod [4] (some 50) (some 51)).outstandings_
      (wrap64 (clientChannel.id_ + 1)) = some { response := some 50, done := some 51 } ∧
    wrap64 (clientChannel.id_ + 1) = 2 :=
  ⟨(CallMethod_postcondition (some 9) 0
      [ChannelOp.call exampleMethod [1, 2, 3] (some 40) (some 41)] clientChannel rfl
      (by decide) exampleMethod [4] (some 50) (some 51)).2.1,
   (CallMethod_postcondition (some 9) 0
      [ChannelOp.call exampleMethod [1, 2, 3] (some 40) (some 41)] clientChannel rfl
      (by decide) exampleMethod [4] (some 50) (some 51)).2.2.1,
   by decide⟩

end RpcChannel

namespace ProtoRpcCodec

/-- C17 (the code's constants): the maximum frame length is 64 MiB, but the
minimum is initialised to 4, not to the tag length plus the checksum length,
which is 8. -/
theorem frame_length_constants :
    kMaxMessageLen = 67108864 ∧ kMinMessageLen = 4 ∧
    (tag_.length : Int) + kChecksumLen = 8 ∧
    kMinMessageLen ≠ (tag_.length : Int) + kChecksumLen := by
  refine ⟨by decide, by decide, by decide, by decide⟩

end ProtoRpcCodec

end ProtoRpc
